import Mathlib

/-!
# Xelma-Backend — round lifecycle and settlement engine, shallow embedding

This file embeds the core of the Xelma prediction-market backend in Lean 4:

* `src/src/utils/decimal.util.ts` — wrappers over the `decimal.js` library
  that Prisma re-exports.  `decimal.js` keeps values exactly, but the result
  of every arithmetic operation (`add`, `sub`, `mul`, `div`) is rounded to
  the configured precision of 20 significant digits with rounding mode
  ROUND_HALF_UP (ties away from zero).  We model a decimal value by the
  exact rational it denotes and each operation by exact rational arithmetic
  followed by `roundSig` (round to 20 significant digits, half away from
  zero).  Comparisons (`eq`, `gt`, `lt`, `gte`) are exact.
* `ResolutionService.resolveRound` / `resolveUpDownRound` /
  `resolveLegendsRound` (resolution.service.ts).
* `PredictionService.submitPrediction` (prediction.service.ts).
* `SchedulerService.autoResolveRounds` (scheduler.service.ts).

Modelling conventions:
* Database `DECIMAL(20,8)` columns hold exact decimal values; the database's
  own `increment`/`decrement` arithmetic on them is exact, so it is modelled
  by exact rational arithmetic.
* JavaScript `number` inputs (stake amounts, prices, range bounds) are
  modelled by the decimal value of the client's literal; this is faithful
  for values of at most 15 significant digits, which round-trip uniquely
  through binary64.  Where the code performs binary floating-point
  arithmetic on numbers — the LEGENDS range-pool update
  `r.pool + amount` on the JSON `priceRanges` field — the binary64
  rounding `fl64` is applied explicitly.
* Prisma `$transaction` semantics: a placement either commits all of its
  writes or none; this is modelled by `submitPrediction` returning the new
  state only through `Except.ok`, and `applySubmit` keeping the old state
  on `Except.error`.
-/

namespace Xelma

/-! ## Rounding primitives -/

/-- `⌊log b q⌋` for a positive rational `q` (junk value elsewhere),
computed from the digit counts of numerator and denominator. -/
def ilog (b : ℕ) (q : ℚ) : ℤ :=
  let z : ℤ := (Nat.log b q.num.natAbs : ℤ) - (Nat.log b q.den : ℤ)
  if (b : ℚ) ^ z ≤ q then z else z - 1

/-- Round a rational to an integer, ties away from zero
(`decimal.js` ROUND_HALF_UP). -/
def rhalfAway (q : ℚ) : ℤ :=
  if 0 ≤ q then ⌊q + 1 / 2⌋ else -⌊1 / 2 - q⌋

/-- Round a rational to an integer, ties to even (IEEE-754 default). -/
def rhalfEven (q : ℚ) : ℤ :=
  let n := ⌊q⌋
  let f := q - n
  if f < 1 / 2 then n
  else if 1 / 2 < f then n + 1
  else if n % 2 = 0 then n else n + 1

/-- Round to 20 significant decimal digits, half away from zero: the
rounding `decimal.js` (precision 20, ROUND_HALF_UP — Prisma's
configuration) applies to the result of every arithmetic operation. -/
def roundSig (q : ℚ) : ℚ :=
  if q = 0 then 0
  else
    let s : ℤ := 19 - ilog 10 |q|
    (rhalfAway (q * (10 : ℚ) ^ s) : ℚ) * (10 : ℚ) ^ (-s)

/-- Round a rational to the nearest IEEE-754 binary64 value (53-bit
significand, ties to even; overflow and subnormals are out of range for
the monetary values in play and not modelled). -/
def fl64 (q : ℚ) : ℚ :=
  if q = 0 then 0
  else
    let s : ℤ := 52 - ilog 2 |q|
    (rhalfEven (|q| * (2 : ℚ) ^ s) : ℚ) * (2 : ℚ) ^ (-s) *
      (if q < 0 then -1 else 1)

/-! ## decimal.util.ts -/

/-- A Prisma/decimal.js decimal value, modelled by the exact rational it
denotes. -/
abbrev Dec := ℚ

/-- `decAdd` — `toDecimal(a).add(toDecimal(b))`; decimal.js rounds the
result to 20 significant digits. -/
def decAdd (a b : Dec) : Dec := roundSig (a + b)

/-- `decSub` — `toDecimal(a).sub(toDecimal(b))`. -/
def decSub (a b : Dec) : Dec := roundSig (a - b)

/-- `decMul` — `toDecimal(a).mul(toDecimal(b))`. -/
def decMul (a b : Dec) : Dec := roundSig (a * b)

/-- `decDiv` — `toDecimal(a).div(toDecimal(b))`; division is rounded to
20 significant digits (the divisor is never zero on the guarded code
paths). -/
def decDiv (a b : Dec) : Dec := roundSig (a / b)

/-! ## Data model (prisma schema: Round, Prediction, User) -/

/-- `PredictionSide` enum. -/
inductive Side
  | UP
  | DOWN
deriving DecidableEq

/-- `GameMode` enum. -/
inductive Mode
  | UP_DOWN
  | LEGENDS
deriving DecidableEq

/-- `RoundStatus` enum. -/
inductive RoundStatus
  | PENDING
  | ACTIVE
  | LOCKED
  | RESOLVED
  | CANCELLED
deriving DecidableEq

/-- A price range selected by a LEGENDS prediction (`priceRange` JSON
field: `{min, max}`). -/
structure RangeSel where
  min : ℚ
  max : ℚ
deriving DecidableEq

/-- A declared price range of a LEGENDS round (`priceRanges` JSON field:
`{min, max, pool}`); `pool` is a JavaScript number kept in JSON, hence a
binary64 value. -/
structure RangeDef where
  min : ℚ
  max : ℚ
  pool : ℚ
deriving DecidableEq

/-- A `Prediction` row.  `amount` and `payout` are `DECIMAL(20,8)`
columns; `won` is a nullable boolean; exactly one of `side` /
`range` is populated depending on the round's mode. -/
structure Prediction where
  id : ℕ
  userId : ℕ
  amount : Dec
  side : Option Side
  range : Option RangeSel
  won : Option Bool
  payout : Option Dec
deriving DecidableEq

/-- A `Round` row, with its predictions included
(`include: { predictions: true }`). -/
structure Round where
  id : ℕ
  mode : Mode
  status : RoundStatus
  startPrice : Dec
  endPrice : Option Dec
  endTime : ℤ
  resolvedAt : Option ℤ
  poolUp : Dec
  poolDown : Dec
  priceRanges : List RangeDef
  predictions : List Prediction
deriving DecidableEq

/-- A `User` row (`virtualBalance` is a `DECIMAL(20,8)` column). -/
structure User where
  id : ℕ
  wallet : String
  balance : Dec
deriving DecidableEq

/-- The persistent state touched by the engines. -/
structure DB where
  users : List User
  rounds : List Round
deriving DecidableEq

/-! ## resolution.service.ts -/

/-- The per-prediction outcome of a resolution: the updated `Prediction`
row and the amount credited to the owner's `virtualBalance` (0 when no
credit is made). -/
structure PredResult where
  pred : Prediction
  credit : Dec
deriving DecidableEq

/-- Errors thrown by `ResolutionService.resolveRound`
(`"Round not found"`, `"Round already resolved"`,
`"Round must be locked or active to resolve"`) and a propagated failure
of the external `sorobanService.resolveRound` call. -/
inductive ResolveError
  | roundNotFound
  | alreadyResolved
  | invalidState
  | settlementFailed
deriving DecidableEq

/-- The refund loop shared by the tie branch of `resolveUpDownRound` and
the no-matching-range branch of `resolveLegendsRound`: every prediction
gets `won := null`, `payout := amount`, and its user's balance is
incremented by the same amount. -/
def refundAll (preds : List Prediction) : List PredResult :=
  preds.map fun p => ⟨{ p with won := none, payout := some p.amount }, p.amount⟩

/-- `ResolutionService.resolveUpDownRound` (resolution.service.ts):
compares `finalPrice` with `startPrice`; on a tie refunds everyone; when
the winning pool is zero returns early leaving every prediction
untouched; otherwise winners get
`decAdd(amount, decMul(decDiv(amount, winningPool), losingPool))` and the
same amount credited to their balance, losers get `won := false`,
`payout := 0` and no balance change. -/
def resolveUpDownRound (round : Round) (finalPrice : ℚ) : List PredResult :=
  if finalPrice = round.startPrice then refundAll round.predictions
  else
    let winningSide := if round.startPrice < finalPrice then Side.UP else Side.DOWN
    let winningPool := if winningSide = Side.UP then round.poolUp else round.poolDown
    let losingPool := if winningSide = Side.UP then round.poolDown else round.poolUp
    if winningPool = 0 then round.predictions.map fun p => ⟨p, 0⟩
    else
      round.predictions.map fun p =>
        if p.side = some winningSide then
          let payout := decAdd p.amount (decMul (decDiv p.amount winningPool) losingPool)
          ⟨{ p with won := some true, payout := some payout }, payout⟩
        else
          ⟨{ p with won := some false, payout := some 0 }, 0⟩

/-- `ResolutionService.resolveLegendsRound` (resolution.service.ts):
finds the declared range with `min ≤ finalPrice < max` (`gte`/`lt`); if
none exists refunds everyone; otherwise the winning pool is that range's
pool, the losing pool is `decSub(totalPool, winningPool)` with
`totalPool` the `decAdd`-fold of all range pools; a zero winning pool
returns early leaving predictions untouched; predictions whose selected
range equals the winning range (both bounds equal) win with the same
proportional formula, all others lose. -/
def resolveLegendsRound (round : Round) (finalPrice : ℚ) : List PredResult :=
  match round.priceRanges.find? (fun g => decide (g.min ≤ finalPrice ∧ finalPrice < g.max)) with
  | none => refundAll round.predictions
  | some wr =>
    let totalPool := round.priceRanges.foldl (fun s g => decAdd s g.pool) 0
    let winningPool := wr.pool
    let losingPool := decSub totalPool winningPool
    if winningPool = 0 then round.predictions.map fun p => ⟨p, 0⟩
    else
      round.predictions.map fun p =>
        match p.range with
        | some pr =>
          if pr.min = wr.min ∧ pr.max = wr.max then
            let payout := decAdd p.amount (decMul (decDiv p.amount winningPool) losingPool)
            ⟨{ p with won := some true, payout := some payout }, payout⟩
          else
            ⟨{ p with won := some false, payout := some 0 }, 0⟩
        | none => ⟨{ p with won := some false, payout := some 0 }, 0⟩

/-- `ResolutionService.resolveRound` (resolution.service.ts): looks the
round up, rejects a RESOLVED round, rejects any status other than LOCKED
or ACTIVE, dispatches on the mode (the UP_DOWN path first performs the
external `sorobanService.resolveRound` call, whose failure propagates;
the LEGENDS path makes no external call), then updates the round to
`status := RESOLVED`, `endPrice := finalPrice`, `resolvedAt := now` in
one write.  Returns the updated round and the per-prediction effects. -/
def resolveRound (round? : Option Round) (finalPrice : ℚ) (now : ℤ)
    (sorobanOk : Bool) : Except ResolveError (Round × List PredResult) :=
  match round? with
  | none => .error .roundNotFound
  | some round =>
    if round.status = .RESOLVED then .error .alreadyResolved
    else if round.status ≠ .LOCKED ∧ round.status ≠ .ACTIVE then .error .invalidState
    else
      let step : Except ResolveError (List PredResult) :=
        match round.mode with
        | .UP_DOWN =>
          if sorobanOk then .ok (resolveUpDownRound round finalPrice)
          else .error .settlementFailed
        | .LEGENDS => .ok (resolveLegendsRound round finalPrice)
      match step with
      | .error e => .error e
      | .ok results =>
        .ok ({ round with
                predictions := results.map (·.pred),
                status := .RESOLVED,
                endPrice := some finalPrice,
                resolvedAt := some now }, results)

/-! ## prediction.service.ts -/

/-- The observable content of the external `sorobanService.placeBet`
call: wallet address, amount, side. -/
structure SorobanCall where
  wallet : String
  amount : ℚ
  side : Side
deriving DecidableEq

/-- Errors thrown by `PredictionService.submitPrediction`; the last
constructor stands for a propagated failure of the external
`sorobanService.placeBet` call, which aborts the surrounding
transaction. -/
inductive SubmitError
  | roundNotFound
  | roundNotActive
  | duplicatePrediction
  | insufficientBalance
  | missingSide
  | missingRange
  | invalidRange
  | settlementFailed
deriving DecidableEq

/-- `tx.round.findUnique({ where: { id } })`. -/
def findRound (db : DB) (rid : ℕ) : Option Round :=
  db.rounds.find? (fun r => r.id == rid)

/-- `tx.user.findUnique`-style lookup. -/
def findUser (db : DB) (uid : ℕ) : Option User :=
  db.users.find? (fun u => u.id == uid)

/-- `tx.round.update({ where: { id } , data })`, as a map over the round
table. -/
def updateRound (db : DB) (rid : ℕ) (f : Round → Round) : DB :=
  { db with rounds := db.rounds.map fun r => if r.id = rid then f r else r }

/-- `tx.user.update({ where: { id }, data })`, as a map over the user
table. -/
def updateUser (db : DB) (uid : ℕ) (f : User → User) : DB :=
  { db with users := db.users.map fun u => if u.id = uid then f u else u }

/-- `PredictionService.submitPrediction` (prediction.service.ts), one
Prisma transaction: look the round up (must be ACTIVE), reject a
duplicate prediction for `(roundId, userId)`, decrement the user's
balance atomically with the sufficiency guard
(`where: { id, virtualBalance: { gte: amount } }` — a missing or
insufficient row raises `Insufficient balance`), insert the prediction
row, then per mode: UP_DOWN requires `side`, increments the matching
side pool by the exact decimal amount, and invokes the external
`sorobanService.placeBet(wallet, amount, side)`, whose failure rolls the
whole transaction back; LEGENDS requires `range`, which must match a
declared range (`===` on both bounds), and rewrites the JSON
`priceRanges` with `pool + amount` computed in binary64 — and makes no
external call.  Success returns the committed state and the list of
external calls made. -/
def submitPrediction (db : DB) (userId roundId : ℕ) (amount : ℚ)
    (side : Option Side) (range : Option RangeSel) (predId : ℕ)
    (sorobanOk : Bool) : Except SubmitError (DB × List SorobanCall) :=
  match findRound db roundId with
  | none => .error .roundNotFound
  | some round =>
    if round.status ≠ .ACTIVE then .error .roundNotActive
    else if (round.predictions.find? (fun p => p.userId == userId)).isSome then
      .error .duplicatePrediction
    else
      match findUser db userId with
      | none => .error .insufficientBalance
      | some user =>
        if user.balance < amount then .error .insufficientBalance
        else
          let db1 := updateUser db userId fun u => { u with balance := u.balance - amount }
          let newPred : Prediction :=
            { id := predId, userId := userId, amount := amount,
              side := side, range := range, won := none, payout := none }
          let db2 := updateRound db1 roundId fun r =>
            { r with predictions := r.predictions ++ [newPred] }
          match round.mode with
          | .UP_DOWN =>
            match side with
            | none => .error .missingSide
            | some s =>
              let db3 := updateRound db2 roundId fun r =>
                if s = Side.UP then { r with poolUp := r.poolUp + amount }
                else { r with poolDown := r.poolDown + amount }
              if sorobanOk then .ok (db3, [⟨user.wallet, amount, s⟩])
              else .error .settlementFailed
          | .LEGENDS =>
            match range with
            | none => .error .missingRange
            | some pr =>
              if (round.priceRanges.find? (fun g => g.min == pr.min && g.max == pr.max)).isSome then
                let db3 := updateRound db2 roundId fun r =>
                  { r with priceRanges := r.priceRanges.map fun g =>
                      if g.min = pr.min ∧ g.max = pr.max then
                        { g with pool := fl64 (g.pool + fl64 amount) }
                      else g }
                .ok (db3, [])
              else .error .invalidRange

/-- The observable effect of one `submitPrediction` transaction on the
database: the new state on commit, the unchanged state on rollback. -/
def applySubmit (db : DB) (userId roundId : ℕ) (amount : ℚ)
    (side : Option Side) (range : Option RangeSel) (predId : ℕ)
    (sorobanOk : Bool) : DB :=
  match submitPrediction db userId roundId amount side range predId sorobanOk with
  | .ok (db1, _) => db1
  | .error _ => db

/-! ## scheduler.service.ts -/

/-- The price oracle's observable interface: last price and staleness
flag (oracle.ts `getPrice` / `isStale`). -/
structure Oracle where
  price : Option ℚ
  stale : Bool

/-- `SchedulerService.autoResolveRounds` (scheduler.service.ts), as the
list of round ids for which `resolutionService.resolveRound` is invoked
on one tick: select rounds in ACTIVE or LOCKED status with
`endTime ≤ now − 15000` ms; if none, do nothing; otherwise read the
oracle price and skip the whole batch when it is `null` or `≤ 0`
(`!currentPrice || currentPrice <= 0`); the staleness flag is never
consulted. -/
def autoResolveRounds (rounds : List Round) (now : ℤ) (oracle : Oracle) : List ℕ :=
  let bufferTime := now - 15000
  let expired := rounds.filter fun r =>
    decide ((r.status = .ACTIVE ∨ r.status = .LOCKED) ∧ r.endTime ≤ bufferTime)
  if expired.isEmpty then []
  else
    match oracle.price with
    | none => []
    | some p => if p ≤ 0 then [] else expired.map (·.id)

/-! ## Sums used by the conservation claims -/

/-- Mathematically exact sum of the `payout` fields written by a
resolution (`none` counts as 0, matching a row never written). -/
def sumPayout (rs : List PredResult) : ℚ :=
  (rs.map fun r => r.pred.payout.getD 0).sum

/-- Mathematically exact sum of the balance credits made by a
resolution. -/
def sumCredit (rs : List PredResult) : ℚ :=
  (rs.map PredResult.credit).sum

/-- Exact sum of the stake amounts of a list of predictions. -/
def sumAmounts (ps : List Prediction) : ℚ :=
  (ps.map Prediction.amount).sum

/-- Exact sum of the stake amounts of the predictions satisfying a
predicate (e.g. one side's stakes). -/
def sumWhere (P : Prediction → Prop) [DecidablePred P] (ps : List Prediction) : ℚ :=
  (ps.map fun p => if P p then p.amount else 0).sum

/-! ## Concrete states used when instantiating the claims -/

/-- An UP_DOWN round whose winning pool does not divide all winning
stakes exactly in 20 significant digits: three UP stakes of 0.1 against
one DOWN stake of 1. -/
def roundResidue : Round :=
  { id := 1, mode := .UP_DOWN, status := .LOCKED, startPrice := 100, endPrice := none,
    endTime := 0, resolvedAt := none, poolUp := 3 / 10, poolDown := 1,
    priceRanges := [],
    predictions :=
      [⟨1, 1, 1 / 10, some .UP, none, none, none⟩,
       ⟨2, 2, 1 / 10, some .UP, none, none, none⟩,
       ⟨3, 3, 1 / 10, some .UP, none, none, none⟩,
       ⟨4, 4, 1, some .DOWN, none, none, none⟩] }

/-- The spec's binary-win scenario: UP stakes 10.33 + 10.33, DOWN stake
10.34, start price 100. -/
def roundScenario : Round :=
  { id := 2, mode := .UP_DOWN, status := .LOCKED, startPrice := 100, endPrice := none,
    endTime := 0, resolvedAt := none, poolUp := 2066 / 100, poolDown := 1034 / 100,
    priceRanges := [],
    predictions :=
      [⟨1, 1, 1033 / 100, some .UP, none, none, none⟩,
       ⟨2, 2, 1033 / 100, some .UP, none, none, none⟩,
       ⟨3, 3, 1034 / 100, some .DOWN, none, none, none⟩] }

/-- A LEGENDS round with two declared ranges, one stake on each. -/
def roundLegends : Round :=
  { id := 3, mode := .LEGENDS, status := .LOCKED, startPrice := 11 / 100, endPrice := none,
    endTime := 0, resolvedAt := none, poolUp := 0, poolDown := 0,
    priceRanges := [⟨1 / 10, 12 / 100, 1 / 2⟩, ⟨12 / 100, 14 / 100, 3 / 2⟩],
    predictions :=
      [⟨1, 1, 1 / 2, none, some ⟨1 / 10, 12 / 100⟩, none, none⟩,
       ⟨2, 2, 3 / 2, none, some ⟨12 / 100, 14 / 100⟩, none, none⟩] }

/-- An UP_DOWN round where the winning side's pool is zero: a single
DOWN stake, resolved upwards. -/
def roundForfeit : Round :=
  { id := 4, mode := .UP_DOWN, status := .LOCKED, startPrice := 100, endPrice := none,
    endTime := 0, resolvedAt := none, poolUp := 0, poolDown := 1,
    priceRanges := [],
    predictions := [⟨1, 1, 1, some .DOWN, none, none, none⟩] }

/-- A funded user. -/
def userA : User := ⟨1, "GWALLETA", 100⟩

/-- A second funded user. -/
def userB : User := ⟨2, "GWALLETB", 100⟩

/-- An ACTIVE UP_DOWN round open for stakes. -/
def binRound : Round :=
  { id := 1, mode := .UP_DOWN, status := .ACTIVE, startPrice := 1 / 2, endPrice := none,
    endTime := 3600000, resolvedAt := none, poolUp := 0, poolDown := 0,
    priceRanges := [], predictions := [] }

/-- An ACTIVE LEGENDS round with one declared range and an empty pool. -/
def legRound : Round :=
  { id := 1, mode := .LEGENDS, status := .ACTIVE, startPrice := 1 / 2, endPrice := none,
    endTime := 3600000, resolvedAt := none, poolUp := 0, poolDown := 0,
    priceRanges := [⟨0, 1, 0⟩], predictions := [] }

/-- A database with one ACTIVE UP_DOWN round and two funded users. -/
def dbBinary : DB := { users := [userA, userB], rounds := [binRound] }

/-- A database with one ACTIVE LEGENDS round and two funded users. -/
def dbLegends : DB := { users := [userA, userB], rounds := [legRound] }

/-- The database state after user 1 stakes 30 on UP in `dbBinary`
(written as the update chain the transaction performs). -/
def dbBinary1 : DB :=
  updateRound (updateRound
      (updateUser dbBinary 1 fun v => { v with balance := v.balance - 30 })
      1 fun q => { q with predictions := q.predictions ++
        [{ id := 1, userId := 1, amount := 30, side := some .UP, range := none,
           won := none, payout := none }] })
    1 fun q =>
      if Side.UP = Side.UP then { q with poolUp := q.poolUp + 30 }
      else { q with poolDown := q.poolDown + 30 }

/-- The database state after user 1 stakes 0.1 on the range [0, 1) in
`dbLegends`. -/
def dbLegends1 : DB :=
  updateRound (updateRound
      (updateUser dbLegends 1 fun v => { v with balance := v.balance - (1 / 10) })
      1 fun q => { q with predictions := q.predictions ++
        [{ id := 1, userId := 1, amount := 1 / 10, side := none, range := some ⟨0, 1⟩,
           won := none, payout := none }] })
    1 fun q =>
      { q with priceRanges := q.priceRanges.map fun g =>
          if g.min = (⟨0, 1⟩ : RangeSel).min ∧ g.max = (⟨0, 1⟩ : RangeSel).max then
            { g with pool := fl64 (g.pool + fl64 (1 / 10)) }
          else g }

/-- The database state after user 2 additionally stakes 0.2 on the same
range in `dbLegends1`. -/
def dbLegends2 : DB :=
  updateRound (updateRound
      (updateUser dbLegends1 2 fun v => { v with balance := v.balance - (2 / 10) })
      1 fun q => { q with predictions := q.predictions ++
        [{ id := 2, userId := 2, amount := 2 / 10, side := none, range := some ⟨0, 1⟩,
           won := none, payout := none }] })
    1 fun q =>
      { q with priceRanges := q.priceRanges.map fun g =>
          if g.min = (⟨0, 1⟩ : RangeSel).min ∧ g.max = (⟨0, 1⟩ : RangeSel).max then
            { g with pool := fl64 (g.pool + fl64 (2 / 10)) }
          else g }

/-- The database state after user 1 stakes 0.1 on UP in `dbBinary`. -/
def dbBinaryA : DB :=
  updateRound (updateRound
      (updateUser dbBinary 1 fun v => { v with balance := v.balance - (1 / 10) })
      1 fun q => { q with predictions := q.predictions ++
        [{ id := 1, userId := 1, amount := 1 / 10, side := some .UP, range := none,
           won := none, payout := none }] })
    1 fun q =>
      if Side.UP = Side.UP then { q with poolUp := q.poolUp + (1 / 10) }
      else { q with poolDown := q.poolDown + (1 / 10) }

/-- The database state after user 2 additionally stakes 0.2 on UP in
`dbBinaryA`. -/
def dbBinaryB : DB :=
  updateRound (updateRound
      (updateUser dbBinaryA 2 fun v => { v with balance := v.balance - (2 / 10) })
      1 fun q => { q with predictions := q.predictions ++
        [{ id := 2, userId := 2, amount := 2 / 10, side := some .UP, range := none,
           won := none, payout := none }] })
    1 fun q =>
      if Side.UP = Side.UP then { q with poolUp := q.poolUp + (2 / 10) }
      else { q with poolDown := q.poolDown + (2 / 10) }

/-- An expired ACTIVE round as selected by the scheduler: it ended 16 s
before the tick. -/
def roundExpired : Round :=
  { id := 5, mode := .UP_DOWN, status := .ACTIVE, startPrice := 3 / 10, endPrice := none,
    endTime := -16000, resolvedAt := none, poolUp := 0, poolDown := 0,
    priceRanges := [], predictions := [] }

/-- The output of resolving `roundForfeit` at price 105 at time 0: the
round is marked RESOLVED with its end price and timestamp, and the lone
DOWN stake is left untouched (zero winning pool). -/
def forfeitResolved : Round × List PredResult :=
  ({ roundForfeit with
      predictions := [⟨1, 1, 1, some .DOWN, none, none, none⟩],
      status := .RESOLVED, endPrice := some 105, resolvedAt := some 0 },
    [⟨⟨1, 1, 1, some .DOWN, none, none, none⟩, 0⟩])

/-! ## Correctness of the rounding primitives -/

theorem ilog_spec_aux {b N D : ℕ} (hb : 2 ≤ b) {q : ℚ} (hN0 : N ≠ 0) (hD0 : D ≠ 0)
    (hq_eq : (N : ℚ) = q * (D : ℚ)) :
    (b : ℚ) ^ ((Nat.log b N : ℤ) - (Nat.log b D : ℤ) - 1) < q ∧
      q < (b : ℚ) ^ ((Nat.log b N : ℤ) - (Nat.log b D : ℤ) + 1) := by
  have hbQ : (0 : ℚ) < (b : ℚ) := by
    have : (0 : ℕ) < b := lt_of_lt_of_le (by norm_num) hb
    exact_mod_cast this
  have hD_pos : (0 : ℚ) < (D : ℚ) := by
    have : 0 < D := Nat.pos_of_ne_zero hD0
    exact_mod_cast this
  have low_n : (b : ℚ) ^ ((Nat.log b N : ℤ)) ≤ (N : ℚ) := by
    rw [zpow_natCast]
    exact_mod_cast Nat.pow_log_le_self b hN0
  have high_n : (N : ℚ) < (b : ℚ) ^ ((Nat.log b N : ℤ) + 1) := by
    rw [show ((Nat.log b N : ℤ) + 1) = ((Nat.log b N + 1 : ℕ) : ℤ) by push_cast; ring,
      zpow_natCast]
    exact_mod_cast Nat.lt_pow_succ_log_self (lt_of_lt_of_le (by norm_num) hb) _
  have low_d : (b : ℚ) ^ ((Nat.log b D : ℤ)) ≤ (D : ℚ) := by
    rw [zpow_natCast]
    exact_mod_cast Nat.pow_log_le_self b hD0
  have high_d : (D : ℚ) < (b : ℚ) ^ ((Nat.log b D : ℤ) + 1) := by
    rw [show ((Nat.log b D : ℤ) + 1) = ((Nat.log b D + 1 : ℕ) : ℤ) by push_cast; ring,
      zpow_natCast]
    exact_mod_cast Nat.lt_pow_succ_log_self (lt_of_lt_of_le (by norm_num) hb) _
  constructor
  · rw [show (b : ℚ) ^ ((Nat.log b N : ℤ) - (Nat.log b D : ℤ) - 1) < q ↔
        (b : ℚ) ^ ((Nat.log b N : ℤ) - (Nat.log b D : ℤ) - 1) * (D : ℚ) < q * (D : ℚ) from
      (mul_lt_mul_right hD_pos).symm, ← hq_eq]
    calc (b : ℚ) ^ ((Nat.log b N : ℤ) - (Nat.log b D : ℤ) - 1) * (D : ℚ)
        < (b : ℚ) ^ ((Nat.log b N : ℤ) - (Nat.log b D : ℤ) - 1) *
            (b : ℚ) ^ ((Nat.log b D : ℤ) + 1) :=
          mul_lt_mul_of_pos_left high_d (zpow_pos hbQ _)
      _ = (b : ℚ) ^ ((Nat.log b N : ℤ)) := by
          rw [← zpow_add₀ hbQ.ne']; ring_nf
      _ ≤ (N : ℚ) := low_n
  · rw [show q < (b : ℚ) ^ ((Nat.log b N : ℤ) - (Nat.log b D : ℤ) + 1) ↔
        q * (D : ℚ) < (b : ℚ) ^ ((Nat.log b N : ℤ) - (Nat.log b D : ℤ) + 1) * (D : ℚ) from
      (mul_lt_mul_right hD_pos).symm, ← hq_eq]
    calc (N : ℚ)
        < (b : ℚ) ^ ((Nat.log b N : ℤ) + 1) := high_n
      _ = (b : ℚ) ^ ((Nat.log b N : ℤ) - (Nat.log b D : ℤ) + 1) *
            (b : ℚ) ^ ((Nat.log b D : ℤ)) := by
          rw [← zpow_add₀ hbQ.ne']; ring_nf
      _ ≤ (b : ℚ) ^ ((Nat.log b N : ℤ) - (Nat.log b D : ℤ) + 1) * (D : ℚ) :=
          mul_le_mul_of_nonneg_left low_d (le_of_lt (zpow_pos hbQ _))

theorem ilog_spec {b : ℕ} (hb : 2 ≤ b) {q : ℚ} (hq : 0 < q) :
    (b : ℚ) ^ ilog b q ≤ q ∧ q < (b : ℚ) ^ (ilog b q + 1) := by
  have hnum_pos : 0 < q.num := Rat.num_pos.mpr hq
  have hn0 : q.num.natAbs ≠ 0 := Int.natAbs_ne_zero.mpr hnum_pos.ne'
  have hq_eq : (q.num.natAbs : ℚ) = q * (q.den : ℚ) := by
    have h2 : (q.num : ℚ) = q * (q.den : ℚ) := by
      have hd : ((q.den : ℚ)) ≠ 0 := by
        have : 0 < q.den := q.pos
        exact_mod_cast this.ne'
      exact (div_eq_iff hd).mp (Rat.num_div_den q)
    rw [Int.cast_natAbs, abs_of_nonneg hnum_pos.le, h2]
  obtain ⟨hlow, hhigh⟩ := ilog_spec_aux hb hn0 q.den_nz hq_eq
  unfold ilog
  by_cases h : (b : ℚ) ^ ((Nat.log b q.num.natAbs : ℤ) - (Nat.log b q.den : ℤ)) ≤ q
  · rw [if_pos h]
    exact ⟨h, hhigh⟩
  · rw [if_neg h]
    refine ⟨hlow.le, ?_⟩
    have h2 := lt_of_not_le h
    simpa using h2

theorem ilog_unique {b : ℕ} (hb : 2 ≤ b) {q : ℚ} (hq : 0 < q) {e : ℤ}
    (h1 : (b : ℚ) ^ e ≤ q) (h2 : q < (b : ℚ) ^ (e + 1)) : ilog b q = e := by
  have hb1 : (1 : ℚ) < (b : ℚ) := by
    have : (1 : ℕ) < b := lt_of_lt_of_le (by norm_num) hb
    exact_mod_cast this
  obtain ⟨l1, l2⟩ := ilog_spec hb hq
  have a1 : (b : ℚ) ^ (ilog b q) < (b : ℚ) ^ (e + 1) := lt_of_le_of_lt l1 h2
  have a2 : (b : ℚ) ^ e < (b : ℚ) ^ (ilog b q + 1) := lt_of_le_of_lt h1 l2
  rw [zpow_lt_zpow_iff_right₀ hb1] at a1 a2
  omega

theorem rhalfAway_intCast (z : ℤ) : rhalfAway (z : ℚ) = z := by
  unfold rhalfAway
  by_cases h : (0 : ℚ) ≤ (z : ℚ)
  · rw [if_pos h, Int.floor_int_add]
    norm_num
  · rw [if_neg h, show (1 : ℚ) / 2 - (z : ℚ) = ((-z : ℤ) : ℚ) + 1 / 2 by push_cast; ring,
      Int.floor_int_add]
    norm_num

theorem rhalfEven_intCast (z : ℤ) : rhalfEven (z : ℚ) = z := by
  unfold rhalfEven
  rw [Int.floor_intCast]
  norm_num

theorem roundSig_eq_pos {q : ℚ} {e : ℤ} (h1 : (10 : ℚ) ^ e ≤ q)
    (h2 : q < (10 : ℚ) ^ (e + 1)) :
    roundSig q = (rhalfAway (q * (10 : ℚ) ^ (19 - e)) : ℚ) * (10 : ℚ) ^ (e - 19) := by
  have hq : 0 < q := lt_of_lt_of_le (zpow_pos (by norm_num) e) h1
  have habs : |q| = q := abs_of_pos hq
  have hi : ilog 10 |q| = e := by
    rw [habs]
    exact ilog_unique (by norm_num) hq h1 h2
  unfold roundSig
  rw [if_neg hq.ne', hi]
  norm_num [sub_eq_add_neg]

theorem roundSig_fixed {q : ℚ} {e z : ℤ} (h1 : (10 : ℚ) ^ e ≤ q)
    (h2 : q < (10 : ℚ) ^ (e + 1)) (hz : q * (10 : ℚ) ^ (19 - e) = (z : ℚ)) :
    roundSig q = q := by
  rw [roundSig_eq_pos h1 h2, hz, rhalfAway_intCast, ← hz, mul_assoc,
    ← zpow_add₀ (by norm_num : (10 : ℚ) ≠ 0)]
  norm_num

theorem fl64_eq_pos {q : ℚ} {e : ℤ} (h1 : (2 : ℚ) ^ e ≤ q) (h2 : q < (2 : ℚ) ^ (e + 1)) :
    fl64 q = (rhalfEven (q * (2 : ℚ) ^ (52 - e)) : ℚ) * (2 : ℚ) ^ (e - 52) := by
  have hq : 0 < q := lt_of_lt_of_le (zpow_pos (by norm_num) e) h1
  have habs : |q| = q := abs_of_pos hq
  have hi : ilog 2 |q| = e := by
    rw [habs]
    exact ilog_unique (by norm_num) hq h1 h2
  unfold fl64
  rw [if_neg hq.ne', hi, if_neg (not_lt.mpr hq.le), habs]
  norm_num [sub_eq_add_neg]

theorem fl64_fixed {q : ℚ} {e z : ℤ} (h1 : (2 : ℚ) ^ e ≤ q)
    (h2 : q < (2 : ℚ) ^ (e + 1)) (hz : q * (2 : ℚ) ^ (52 - e) = (z : ℚ)) :
    fl64 q = q := by
  rw [fl64_eq_pos h1 h2, hz, rhalfEven_intCast, ← hz, mul_assoc,
    ← zpow_add₀ (by norm_num : (2 : ℚ) ≠ 0)]
  norm_num

/-! ## Branch characterisations of the resolvers -/

theorem resolveUpDown_refund (r : Round) (f : ℚ) (h : f = r.startPrice) :
    resolveUpDownRound r f = refundAll r.predictions := by
  rw [resolveUpDownRound, if_pos h]

theorem resolveUpDown_up (r : Round) (f : ℚ) (h : r.startPrice < f) (hW : r.poolUp ≠ 0) :
    resolveUpDownRound r f = r.predictions.map fun p =>
      if p.side = some Side.UP then
        ⟨{ p with
            won := some true,
            payout := some (decAdd p.amount (decMul (decDiv p.amount r.poolUp) r.poolDown)) },
          decAdd p.amount (decMul (decDiv p.amount r.poolUp) r.poolDown)⟩
      else ⟨{ p with won := some false, payout := some 0 }, 0⟩ := by
  rw [resolveUpDownRound, if_neg h.ne', if_pos h]
  dsimp only
  rw [if_pos (rfl : Side.UP = Side.UP), if_pos (rfl : Side.UP = Side.UP), if_neg hW]

theorem resolveUpDown_down (r : Round) (f : ℚ) (h : f < r.startPrice) (hW : r.poolDown ≠ 0) :
    resolveUpDownRound r f = r.predictions.map fun p =>
      if p.side = some Side.DOWN then
        ⟨{ p with
            won := some true,
            payout := some (decAdd p.amount (decMul (decDiv p.amount r.poolDown) r.poolUp)) },
          decAdd p.amount (decMul (decDiv p.amount r.poolDown) r.poolUp)⟩
      else ⟨{ p with won := some false, payout := some 0 }, 0⟩ := by
  rw [resolveUpDownRound, if_neg h.ne, if_neg (not_lt.mpr h.le)]
  dsimp only
  rw [if_neg (by simp : ¬(Side.DOWN = Side.UP)), if_neg (by simp : ¬(Side.DOWN = Side.UP)),
    if_neg hW]

theorem resolveUpDown_forfeit_up (r : Round) (f : ℚ) (h : r.startPrice < f)
    (hW : r.poolUp = 0) :
    resolveUpDownRound r f = r.predictions.map fun p => ⟨p, 0⟩ := by
  rw [resolveUpDownRound, if_neg h.ne', if_pos h]
  dsimp only
  rw [if_pos (rfl : Side.UP = Side.UP), if_pos hW]

theorem resolveUpDown_forfeit_down (r : Round) (f : ℚ) (h : f < r.startPrice)
    (hW : r.poolDown = 0) :
    resolveUpDownRound r f = r.predictions.map fun p => ⟨p, 0⟩ := by
  rw [resolveUpDownRound, if_neg h.ne, if_neg (not_lt.mpr h.le)]
  dsimp only
  rw [if_neg (by simp : ¬(Side.DOWN = Side.UP)), if_pos hW]

theorem resolveLegends_refund (r : Round) (f : ℚ)
    (h : r.priceRanges.find? (fun g => decide (g.min ≤ f ∧ f < g.max)) = none) :
    resolveLegendsRound r f = refundAll r.predictions := by
  rw [resolveLegendsRound, h]

theorem resolveLegends_win (r : Round) (f : ℚ) (wr : RangeDef)
    (h : r.priceRanges.find? (fun g => decide (g.min ≤ f ∧ f < g.max)) = some wr)
    (hW : wr.pool ≠ 0) :
    resolveLegendsRound r f = r.predictions.map fun p =>
      match p.range with
      | some pr =>
        if pr.min = wr.min ∧ pr.max = wr.max then
          ⟨{ p with
              won := some true,
              payout := some (decAdd p.amount (decMul (decDiv p.amount wr.pool)
                (decSub (r.priceRanges.foldl (fun s g => decAdd s g.pool) 0) wr.pool))) },
            decAdd p.amount (decMul (decDiv p.amount wr.pool)
              (decSub (r.priceRanges.foldl (fun s g => decAdd s g.pool) 0) wr.pool))⟩
        else ⟨{ p with won := some false, payout := some 0 }, 0⟩
      | none => ⟨{ p with won := some false, payout := some 0 }, 0⟩ := by
  rw [resolveLegendsRound, h]
  dsimp only
  rw [if_neg hW]

theorem resolveLegends_forfeit (r : Round) (f : ℚ) (wr : RangeDef)
    (h : r.priceRanges.find? (fun g => decide (g.min ≤ f ∧ f < g.max)) = some wr)
    (hW : wr.pool = 0) :
    resolveLegendsRound r f = r.predictions.map fun p => ⟨p, 0⟩ := by
  rw [resolveLegendsRound, h]
  dsimp only
  rw [if_pos hW]

/-! ## Sum lemmas -/

theorem sumPayout_refundAll (ps : List Prediction) :
    sumPayout (refundAll ps) = sumAmounts ps := by
  simp [sumPayout, refundAll, sumAmounts, List.map_map, Function.comp_def]

theorem sumCredit_refundAll (ps : List Prediction) :
    sumCredit (refundAll ps) = sumAmounts ps := by
  simp [sumCredit, refundAll, sumAmounts, List.map_map, Function.comp_def]

theorem sum_map_ite (ps : List Prediction) (P : Prediction → Prop) [DecidablePred P]
    (c : ℚ) (pay : Prediction → ℚ) (h : ∀ p ∈ ps, P p → pay p = p.amount * c) :
    (ps.map fun p => if P p then pay p else 0).sum
      = c * (ps.map fun p => if P p then p.amount else 0).sum := by
  induction ps with
  | nil => simp
  | cons a l ih =>
    simp only [List.map_cons, List.sum_cons]
    rw [ih fun p hp hw => h p (List.mem_cons_of_mem a hp) hw]
    by_cases hw : P a
    · rw [if_pos hw, if_pos hw, h a (List.mem_cons_self a l) hw]
      ring
    · rw [if_neg hw, if_neg hw]
      ring

/-! ## Conservation of the proportional payout -/

theorem sumPayout_up (r : Round) (f : ℚ) (h : r.startPrice < f) (hW : r.poolUp ≠ 0) :
    sumPayout (resolveUpDownRound r f) = (r.predictions.map fun p =>
      if p.side = some Side.UP then
        decAdd p.amount (decMul (decDiv p.amount r.poolUp) r.poolDown) else 0).sum := by
  rw [resolveUpDown_up r f h hW, sumPayout, List.map_map]
  refine congrArg List.sum (List.map_congr_left fun p hp => ?_)
  by_cases hc : p.side = some Side.UP
  · simp [Function.comp_def, hc]
  · simp [Function.comp_def, hc]

theorem sumPayout_down (r : Round) (f : ℚ) (h : f < r.startPrice) (hW : r.poolDown ≠ 0) :
    sumPayout (resolveUpDownRound r f) = (r.predictions.map fun p =>
      if p.side = some Side.DOWN then
        decAdd p.amount (decMul (decDiv p.amount r.poolDown) r.poolUp) else 0).sum := by
  rw [resolveUpDown_down r f h hW, sumPayout, List.map_map]
  refine congrArg List.sum (List.map_congr_left fun p hp => ?_)
  by_cases hc : p.side = some Side.DOWN
  · simp [Function.comp_def, hc]
  · simp [Function.comp_def, hc]

theorem sumPayout_legends (r : Round) (f : ℚ) (wr : RangeDef)
    (h : r.priceRanges.find? (fun g => decide (g.min ≤ f ∧ f < g.max)) = some wr)
    (hW : wr.pool ≠ 0) :
    sumPayout (resolveLegendsRound r f) = (r.predictions.map fun p =>
      if p.range = some ⟨wr.min, wr.max⟩ then
        decAdd p.amount (decMul (decDiv p.amount wr.pool)
          (decSub (r.priceRanges.foldl (fun s g => decAdd s g.pool) 0) wr.pool)) else 0).sum := by
  rw [resolveLegends_win r f wr h hW, sumPayout, List.map_map]
  refine congrArg List.sum (List.map_congr_left fun p hp => ?_)
  rcases hr : p.range with _ | pr
  · simp [Function.comp_def, hr]
  · cases pr with
    | mk prmin prmax =>
      by_cases hc : prmin = wr.min ∧ prmax = wr.max
      · simp [Function.comp_def, hr, hc]
      · simp [Function.comp_def, hr, hc, RangeSel.mk.injEq]

theorem conserve_up (r : Round) (f : ℚ) (h : r.startPrice < f) (hW : r.poolUp ≠ 0)
    (hsum : sumWhere (fun p => p.side = some Side.UP) r.predictions = r.poolUp)
    (hexact : ∀ p ∈ r.predictions, p.side = some Side.UP →
      decAdd p.amount (decMul (decDiv p.amount r.poolUp) r.poolDown)
        = p.amount + p.amount / r.poolUp * r.poolDown) :
    sumPayout (resolveUpDownRound r f) = r.poolUp + r.poolDown := by
  rw [sumPayout_up r f h hW, sum_map_ite r.predictions (fun p => p.side = some Side.UP)
    (1 + r.poolDown / r.poolUp) _ ?_]
  · rw [show (r.predictions.map fun p =>
        if p.side = some Side.UP then p.amount else 0).sum
        = sumWhere (fun p => p.side = some Side.UP) r.predictions from rfl, hsum]
    field_simp
  · intro p hp hP
    rw [hexact p hp hP]
    ring

theorem conserve_down (r : Round) (f : ℚ) (h : f < r.startPrice) (hW : r.poolDown ≠ 0)
    (hsum : sumWhere (fun p => p.side = some Side.DOWN) r.predictions = r.poolDown)
    (hexact : ∀ p ∈ r.predictions, p.side = some Side.DOWN →
      decAdd p.amount (decMul (decDiv p.amount r.poolDown) r.poolUp)
        = p.amount + p.amount / r.poolDown * r.poolUp) :
    sumPayout (resolveUpDownRound r f) = r.poolDown + r.poolUp := by
  rw [sumPayout_down r f h hW, sum_map_ite r.predictions (fun p => p.side = some Side.DOWN)
    (1 + r.poolUp / r.poolDown) _ ?_]
  · rw [show (r.predictions.map fun p =>
        if p.side = some Side.DOWN then p.amount else 0).sum
        = sumWhere (fun p => p.side = some Side.DOWN) r.predictions from rfl, hsum]
    field_simp
  · intro p hp hP
    rw [hexact p hp hP]
    ring

theorem conserve_legends (r : Round) (f : ℚ) (wr : RangeDef)
    (h : r.priceRanges.find? (fun g => decide (g.min ≤ f ∧ f < g.max)) = some wr)
    (hW : wr.pool ≠ 0)
    (hsum : sumWhere (fun p => p.range = some ⟨wr.min, wr.max⟩) r.predictions = wr.pool)
    (hexact : ∀ p ∈ r.predictions, p.range = some ⟨wr.min, wr.max⟩ →
      decAdd p.amount (decMul (decDiv p.amount wr.pool)
          (decSub (r.priceRanges.foldl (fun s g => decAdd s g.pool) 0) wr.pool))
        = p.amount + p.amount / wr.pool *
            decSub (r.priceRanges.foldl (fun s g => decAdd s g.pool) 0) wr.pool) :
    sumPayout (resolveLegendsRound r f)
      = wr.pool + decSub (r.priceRanges.foldl (fun s g => decAdd s g.pool) 0) wr.pool := by
  rw [sumPayout_legends r f wr h hW,
    sum_map_ite r.predictions (fun p => p.range = some ⟨wr.min, wr.max⟩)
    (1 + decSub (r.priceRanges.foldl (fun s g => decAdd s g.pool) 0) wr.pool / wr.pool) _ ?_]
  · rw [show (r.predictions.map fun p =>
        if p.range = some ⟨wr.min, wr.max⟩ then p.amount else 0).sum
        = sumWhere (fun p => p.range = some ⟨wr.min, wr.max⟩) r.predictions from rfl, hsum]
    field_simp
  · intro p hp hP
    rw [hexact p hp hP]
    ring

/-! ## Evaluation helpers for exactly representable results -/

theorem decAdd_eval {a b c : ℚ} {e z : ℤ} (hab : a + b = c) (h1 : (10 : ℚ) ^ e ≤ c)
    (h2 : c < (10 : ℚ) ^ (e + 1)) (hz : c * (10 : ℚ) ^ (19 - e) = (z : ℚ)) :
    decAdd a b = c := by
  rw [decAdd, hab]
  exact roundSig_fixed h1 h2 hz

theorem decSub_eval {a b c : ℚ} {e z : ℤ} (hab : a - b = c) (h1 : (10 : ℚ) ^ e ≤ c)
    (h2 : c < (10 : ℚ) ^ (e + 1)) (hz : c * (10 : ℚ) ^ (19 - e) = (z : ℚ)) :
    decSub a b = c := by
  rw [decSub, hab]
  exact roundSig_fixed h1 h2 hz

theorem decMul_eval {a b c : ℚ} {e z : ℤ} (hab : a * b = c) (h1 : (10 : ℚ) ^ e ≤ c)
    (h2 : c < (10 : ℚ) ^ (e + 1)) (hz : c * (10 : ℚ) ^ (19 - e) = (z : ℚ)) :
    decMul a b = c := by
  rw [decMul, hab]
  exact roundSig_fixed h1 h2 hz

theorem decDiv_eval {a b c : ℚ} {e z : ℤ} (hab : a / b = c) (h1 : (10 : ℚ) ^ e ≤ c)
    (h2 : c < (10 : ℚ) ^ (e + 1)) (hz : c * (10 : ℚ) ^ (19 - e) = (z : ℚ)) :
    decDiv a b = c := by
  rw [decDiv, hab]
  exact roundSig_fixed h1 h2 hz

/-! ## Concrete decimal computations -/

theorem decDiv_tenth : decDiv (1 / 10) (3 / 10) = 33333333333333333333 / 10 ^ 20 := by
  rw [decDiv, show ((1 : ℚ) / 10) / ((3 : ℚ) / 10) = 1 / 3 by norm_num,
    roundSig_eq_pos (e := -1) (by norm_num) (by norm_num), rhalfAway]
  norm_num

theorem payout_tenth : decAdd (1 / 10) (decMul (decDiv (1 / 10) (3 / 10)) 1)
    = 43333333333333333333 / 10 ^ 20 := by
  rw [decDiv_tenth,
    decMul_eval (e := -1) (z := 33333333333333333333) (mul_one _) (by norm_num) (by norm_num)
      (by norm_num)]
  exact decAdd_eval (e := -1) (z := 43333333333333333333) (by norm_num) (by norm_num)
    (by norm_num) (by norm_num)

theorem payout_scn_up :
    decAdd (1033 / 100) (decMul (decDiv (1033 / 100) (2066 / 100)) (1034 / 100))
      = 31 / 2 := by
  rw [decDiv_eval (e := -1) (z := 5 * 10 ^ 19) (by norm_num : (1033 : ℚ) / 100 / (2066 / 100)
      = 1 / 2) (by norm_num) (by norm_num) (by norm_num),
    decMul_eval (e := 0) (z := 517 * 10 ^ 17) (by norm_num : (1 : ℚ) / 2 * (1034 / 100)
      = 517 / 100) (by norm_num) (by norm_num) (by norm_num)]
  exact decAdd_eval (e := 1) (z := 155 * 10 ^ 17) (by norm_num) (by norm_num) (by norm_num)
    (by norm_num)

theorem payout_scn_down :
    decAdd (1034 / 100) (decMul (decDiv (1034 / 100) (1034 / 100)) (2066 / 100)) = 31 := by
  rw [decDiv_eval (e := 0) (z := 10 ^ 19) (by norm_num : (1034 : ℚ) / 100 / (1034 / 100) = 1)
      (by norm_num) (by norm_num) (by norm_num),
    decMul_eval (e := 1) (z := 2066 * 10 ^ 16) (one_mul _) (by norm_num) (by norm_num)
      (by norm_num)]
  exact decAdd_eval (e := 1) (z := 31 * 10 ^ 18) (by norm_num) (by norm_num) (by norm_num)
    (by norm_num)

theorem fold_legends :
    roundLegends.priceRanges.foldl (fun s g => decAdd s g.pool) 0 = 2 := by
  simp only [roundLegends, List.foldl_cons, List.foldl_nil]
  rw [decAdd_eval (e := -1) (z := 5 * 10 ^ 19) (zero_add _) (by norm_num) (by norm_num)
    (by norm_num)]
  exact decAdd_eval (e := 0) (z := 2 * 10 ^ 19) (by norm_num) (by norm_num) (by norm_num)
    (by norm_num)

theorem payout_legends_win :
    decAdd (1 / 2) (decMul (decDiv (1 / 2) (1 / 2)) (decSub 2 (1 / 2))) = 2 := by
  rw [decSub_eval (e := 0) (z := 15 * 10 ^ 18) (by norm_num : (2 : ℚ) - 1 / 2 = 3 / 2)
      (by norm_num) (by norm_num) (by norm_num),
    decDiv_eval (e := 0) (z := 10 ^ 19) (by norm_num : (1 : ℚ) / 2 / (1 / 2) = 1)
      (by norm_num) (by norm_num) (by norm_num),
    decMul_eval (e := 0) (z := 15 * 10 ^ 18) (one_mul _) (by norm_num) (by norm_num)
      (by norm_num)]
  exact decAdd_eval (e := 0) (z := 2 * 10 ^ 19) (by norm_num) (by norm_num) (by norm_num)
    (by norm_num)

/-! ## Find-lemmas for the LEGENDS example round -/

theorem roundLegends_find_none :
    roundLegends.priceRanges.find?
      (fun g => decide (g.min ≤ (2 / 10 : ℚ) ∧ (2 / 10 : ℚ) < g.max)) = none := by
  show List.find? _ (_ :: _ :: _) = none
  rw [List.find?_cons_of_neg _ (by norm_num), List.find?_cons_of_neg _ (by norm_num)]
  rfl

theorem roundLegends_find_win :
    roundLegends.priceRanges.find?
      (fun g => decide (g.min ≤ (11 / 100 : ℚ) ∧ (11 / 100 : ℚ) < g.max))
      = some ⟨1 / 10, 12 / 100, 1 / 2⟩ := by
  show List.find? _ (_ :: _) = _
  exact List.find?_cons_of_pos _ (by norm_num)

/-! ## Claim C1 -/

/-- Claim C1, counterexample: with three winning UP stakes of 0.1 against
a losing pool of 1 (winning pool 0.3), each winner's payout is
`0.1 + round₂₀(1/3)·1 = 0.43333333333333333333`, so the exact sum of the
payouts written by `resolveUpDownRound` is `1.29999999999999999999`,
which differs from `W + L = 1.3`: the conservation identity claimed by
the spec does not hold to full precision. -/
theorem c1_conservation_counterexample :
    sumPayout (resolveUpDownRound roundResidue 105) = 129999999999999999999 / 10 ^ 20 ∧
    roundResidue.poolUp + roundResidue.poolDown = 13 / 10 ∧
    sumWhere (fun p => p.side = some Side.UP) roundResidue.predictions
      = roundResidue.poolUp ∧
    (129999999999999999999 / 10 ^ 20 : ℚ) ≠ 13 / 10 := by
  refine ⟨?_, by norm_num [roundResidue], ?_, by norm_num⟩
  · rw [sumPayout_up roundResidue 105 (by norm_num [roundResidue])
      (by norm_num [roundResidue])]
    simp only [roundResidue, List.map_cons, List.map_nil, Option.some.injEq, reduceCtorEq,
      if_true, if_false]
    rw [payout_tenth]
    simp only [List.sum_cons, List.sum_nil]
    norm_num
  · simp only [roundResidue, sumWhere, List.map_cons, List.map_nil, Option.some.injEq,
      reduceCtorEq, if_true, if_false, List.sum_cons, List.sum_nil]
    norm_num

/-- Claim C1 (amended): refund conservation is exact—on a tie (BINARY)
or when no range matches (RANGE) the exact sum of payouts equals the
total pool whenever the pools account for the stakes; and the payout
identity `Σ(all payouts) = W + L` holds whenever the winning pool equals
the sum of the winning stakes and each winner's decimal payout
computation is rounding-free, i.e. `decAdd(a, decMul(decDiv(a,W),L))`
equals the exact `a + (a/W)·L`.  (Without the rounding-free hypothesis
the identity can fail, see the counterexample.) -/
theorem c1_conservation_amended :
    (∀ (r : Round) (f : ℚ), f = r.startPrice →
      r.poolUp + r.poolDown = sumAmounts r.predictions →
      sumPayout (resolveUpDownRound r f) = r.poolUp + r.poolDown) ∧
    (∀ (r : Round) (f : ℚ), r.startPrice < f → r.poolUp ≠ 0 →
      sumWhere (fun p => p.side = some Side.UP) r.predictions = r.poolUp →
      (∀ p ∈ r.predictions, p.side = some Side.UP →
        decAdd p.amount (decMul (decDiv p.amount r.poolUp) r.poolDown)
          = p.amount + p.amount / r.poolUp * r.poolDown) →
      sumPayout (resolveUpDownRound r f) = r.poolUp + r.poolDown) ∧
    (∀ (r : Round) (f : ℚ), f < r.startPrice → r.poolDown ≠ 0 →
      sumWhere (fun p => p.side = some Side.DOWN) r.predictions = r.poolDown →
      (∀ p ∈ r.predictions, p.side = some Side.DOWN →
        decAdd p.amount (decMul (decDiv p.amount r.poolDown) r.poolUp)
          = p.amount + p.amount / r.poolDown * r.poolUp) →
      sumPayout (resolveUpDownRound r f) = r.poolDown + r.poolUp) ∧
    (∀ (r : Round) (f : ℚ),
      r.priceRanges.find? (fun g => decide (g.min ≤ f ∧ f < g.max)) = none →
      r.priceRanges.foldl (fun s g => decAdd s g.pool) 0 = sumAmounts r.predictions →
      sumPayout (resolveLegendsRound r f)
        = r.priceRanges.foldl (fun s g => decAdd s g.pool) 0) ∧
    (∀ (r : Round) (f : ℚ) (wr : RangeDef),
      r.priceRanges.find? (fun g => decide (g.min ≤ f ∧ f < g.max)) = some wr →
      wr.pool ≠ 0 →
      sumWhere (fun p => p.range = some ⟨wr.min, wr.max⟩) r.predictions = wr.pool →
      (∀ p ∈ r.predictions, p.range = some ⟨wr.min, wr.max⟩ →
        decAdd p.amount (decMul (decDiv p.amount wr.pool)
            (decSub (r.priceRanges.foldl (fun s g => decAdd s g.pool) 0) wr.pool))
          = p.amount + p.amount / wr.pool *
              decSub (r.priceRanges.foldl (fun s g => decAdd s g.pool) 0) wr.pool) →
      sumPayout (resolveLegendsRound r f)
        = wr.pool + decSub (r.priceRanges.foldl (fun s g => decAdd s g.pool) 0) wr.pool) := by
  refine ⟨?_, conserve_up, conserve_down, ?_, conserve_legends⟩
  · intro r f hf hpool
    rw [resolveUpDown_refund r f hf, sumPayout_refundAll, ← hpool]
  · intro r f hfind hpool
    rw [resolveLegends_refund r f hfind, sumPayout_refundAll, ← hpool]

/-- Claim C1 witness: the amended conservation statement instantiated on
the spec's binary scenario (UP 10.33 + 10.33, DOWN 10.34; tie, up-win
and down-win resolutions) and on a two-range LEGENDS round (no-match
refund and a matching range), with every hypothesis discharged by
computation. -/
theorem c1_conservation_amended_witness :
    sumPayout (resolveUpDownRound roundScenario 100)
      = roundScenario.poolUp + roundScenario.poolDown ∧
    sumPayout (resolveUpDownRound roundScenario 105)
      = roundScenario.poolUp + roundScenario.poolDown ∧
    sumPayout (resolveUpDownRound roundScenario 95)
      = roundScenario.poolDown + roundScenario.poolUp ∧
    sumPayout (resolveLegendsRound roundLegends (2 / 10))
      = roundLegends.priceRanges.foldl (fun s g => decAdd s g.pool) 0 ∧
    sumPayout (resolveLegendsRound roundLegends (11 / 100))
      = (1 / 2 : ℚ) + decSub (roundLegends.priceRanges.foldl (fun s g => decAdd s g.pool) 0)
          (1 / 2) := by
  refine ⟨?_, ?_, ?_, ?_, ?_⟩
  · refine c1_conservation_amended.1 roundScenario 100 (by norm_num [roundScenario]) ?_
    simp only [roundScenario, sumAmounts, List.map_cons, List.map_nil, List.sum_cons,
      List.sum_nil]
    norm_num
  · refine c1_conservation_amended.2.1 roundScenario 105 (by norm_num [roundScenario])
      (by norm_num [roundScenario]) ?_ ?_
    · simp only [roundScenario, sumWhere, List.map_cons, List.map_nil, Option.some.injEq,
        reduceCtorEq, if_true, if_false, List.sum_cons, List.sum_nil]
      norm_num
    · intro p hp hside
      simp only [roundScenario, List.mem_cons, List.not_mem_nil, or_false] at hp
      rcases hp with hp | hp | hp <;> subst hp
      · simp only [roundScenario]
        rw [payout_scn_up]
        norm_num
      · simp only [roundScenario]
        rw [payout_scn_up]
        norm_num
      · simp at hside
  · refine c1_conservation_amended.2.2.1 roundScenario 95 (by norm_num [roundScenario])
      (by norm_num [roundScenario]) ?_ ?_
    · simp only [roundScenario, sumWhere, List.map_cons, List.map_nil, Option.some.injEq,
        reduceCtorEq, if_true, if_false, List.sum_cons, List.sum_nil]
      norm_num
    · intro p hp hside
      simp only [roundScenario, List.mem_cons, List.not_mem_nil, or_false] at hp
      rcases hp with hp | hp | hp <;> subst hp
      · simp at hside
      · simp at hside
      · simp only [roundScenario]
        rw [payout_scn_down]
        norm_num
  · refine c1_conservation_amended.2.2.2.1 roundLegends (2 / 10) roundLegends_find_none ?_
    rw [fold_legends]
    simp only [roundLegends, sumAmounts, List.map_cons, List.map_nil, List.sum_cons,
      List.sum_nil]
    norm_num
  · refine c1_conservation_amended.2.2.2.2 roundLegends (11 / 100) ⟨1 / 10, 12 / 100, 1 / 2⟩
      roundLegends_find_win (by norm_num) ?_ ?_
    · simp only [roundLegends, sumWhere, List.map_cons, List.map_nil, Option.some.injEq,
        RangeSel.mk.injEq, List.sum_cons, List.sum_nil]
      norm_num
    · intro p hp hrange
      simp only [roundLegends, List.mem_cons, List.not_mem_nil, or_false] at hp
      rcases hp with hp | hp <;> subst hp
      · dsimp only
        rw [fold_legends, payout_legends_win,
          decSub_eval (e := 0) (z := 15 * 10 ^ 18) (by norm_num : (2 : ℚ) - 1 / 2 = 3 / 2)
            (by norm_num) (by norm_num) (by norm_num)]
        norm_num
      · exact absurd hrange (by norm_num)

/-! ## Claim C2 -/

/-- Claim C2: in a BINARY resolution with a nonzero winning pool, the
winning side is UP when `finalPrice > startPrice` and DOWN when
`finalPrice < startPrice`; every stake on the winning side receives
`payout = decAdd(a, decMul(decDiv(a, W), L))` (the decimal rendering of
`a + (a/W)·L`) with outcome `true` and the payout credited to its
balance, and every other stake receives payout 0 with outcome `false`.
In a RANGE resolution the winning range is the declared range with
`min ≤ finalPrice < max` (found by `find?`), `W` is that range's pool,
`L = decSub(totalPool, W)` is the sum of all other ranges' pools, and
stakes whose selected range equals the winning range win by the same
formula while all others lose with payout 0. -/
theorem c2_proportional_payout :
    (∀ (r : Round) (f : ℚ), r.startPrice < f → r.poolUp ≠ 0 →
      resolveUpDownRound r f = r.predictions.map fun p =>
        if p.side = some Side.UP then
          ⟨{ p with
              won := some true,
              payout := some (decAdd p.amount (decMul (decDiv p.amount r.poolUp) r.poolDown)) },
            decAdd p.amount (decMul (decDiv p.amount r.poolUp) r.poolDown)⟩
        else ⟨{ p with won := some false, payout := some 0 }, 0⟩) ∧
    (∀ (r : Round) (f : ℚ), f < r.startPrice → r.poolDown ≠ 0 →
      resolveUpDownRound r f = r.predictions.map fun p =>
        if p.side = some Side.DOWN then
          ⟨{ p with
              won := some true,
              payout := some (decAdd p.amount (decMul (decDiv p.amount r.poolDown) r.poolUp)) },
            decAdd p.amount (decMul (decDiv p.amount r.poolDown) r.poolUp)⟩
        else ⟨{ p with won := some false, payout := some 0 }, 0⟩) ∧
    (∀ (r : Round) (f : ℚ) (wr : RangeDef),
      r.priceRanges.find? (fun g => decide (g.min ≤ f ∧ f < g.max)) = some wr →
      wr.pool ≠ 0 →
      resolveLegendsRound r f = r.predictions.map fun p =>
        match p.range with
        | some pr =>
          if pr.min = wr.min ∧ pr.max = wr.max then
            ⟨{ p with
                won := some true,
                payout := some (decAdd p.amount (decMul (decDiv p.amount wr.pool)
                  (decSub (r.priceRanges.foldl (fun s g => decAdd s g.pool) 0) wr.pool))) },
              decAdd p.amount (decMul (decDiv p.amount wr.pool)
                (decSub (r.priceRanges.foldl (fun s g => decAdd s g.pool) 0) wr.pool))⟩
          else ⟨{ p with won := some false, payout := some 0 }, 0⟩
        | none => ⟨{ p with won := some false, payout := some 0 }, 0⟩) :=
  ⟨resolveUpDown_up, resolveUpDown_down, resolveLegends_win⟩

/-- Claim C2 witness: the three payout characterisations instantiated on
the concrete example rounds (up-win at 105, down-win at 95, and the
matching LEGENDS range at 0.11), with all hypotheses discharged by
computation. -/
theorem c2_proportional_payout_witness :
    resolveUpDownRound roundScenario 105 = roundScenario.predictions.map (fun p =>
      if p.side = some Side.UP then
        ⟨{ p with
            won := some true,
            payout := some (decAdd p.amount
              (decMul (decDiv p.amount roundScenario.poolUp) roundScenario.poolDown)) },
          decAdd p.amount (decMul (decDiv p.amount roundScenario.poolUp) roundScenario.poolDown)⟩
      else ⟨{ p with won := some false, payout := some 0 }, 0⟩) ∧
    resolveUpDownRound roundScenario 95 = roundScenario.predictions.map (fun p =>
      if p.side = some Side.DOWN then
        ⟨{ p with
            won := some true,
            payout := some (decAdd p.amount
              (decMul (decDiv p.amount roundScenario.poolDown) roundScenario.poolUp)) },
          decAdd p.amount (decMul (decDiv p.amount roundScenario.poolDown) roundScenario.poolUp)⟩
      else ⟨{ p with won := some false, payout := some 0 }, 0⟩) ∧
    resolveLegendsRound roundLegends (11 / 100) = roundLegends.predictions.map (fun p =>
      match p.range with
      | some pr =>
        if pr.min = (⟨1 / 10, 12 / 100, 1 / 2⟩ : RangeDef).min ∧
            pr.max = (⟨1 / 10, 12 / 100, 1 / 2⟩ : RangeDef).max then
          ⟨{ p with
              won := some true,
              payout := some (decAdd p.amount
                (decMul (decDiv p.amount (⟨1 / 10, 12 / 100, 1 / 2⟩ : RangeDef).pool)
                  (decSub (roundLegends.priceRanges.foldl (fun s g => decAdd s g.pool) 0)
                    (⟨1 / 10, 12 / 100, 1 / 2⟩ : RangeDef).pool))) },
            decAdd p.amount
              (decMul (decDiv p.amount (⟨1 / 10, 12 / 100, 1 / 2⟩ : RangeDef).pool)
                (decSub (roundLegends.priceRanges.foldl (fun s g => decAdd s g.pool) 0)
                  (⟨1 / 10, 12 / 100, 1 / 2⟩ : RangeDef).pool))⟩
        else ⟨{ p with won := some false, payout := some 0 }, 0⟩
      | none => ⟨{ p with won := some false, payout := some 0 }, 0⟩) := by
  refine ⟨?_, ?_, ?_⟩
  · exact c2_proportional_payout.1 roundScenario 105 (by norm_num [roundScenario])
      (by norm_num [roundScenario])
  · exact c2_proportional_payout.2.1 roundScenario 95 (by norm_num [roundScenario])
      (by norm_num [roundScenario])
  · exact c2_proportional_payout.2.2 roundLegends (11 / 100) ⟨1 / 10, 12 / 100, 1 / 2⟩
      roundLegends_find_win (by norm_num)

/-! ## Claim C6 -/

/-- Claim C6: whenever resolution refunds — a BINARY round whose
`finalPrice` equals `startPrice`, or a RANGE round where no declared
range contains `finalPrice` — every stake is updated to `won := null`
and `payout := its own amount`, and its owner's balance is credited by
exactly that amount. -/
theorem c6_refund_everyone :
    (∀ (r : Round) (f : ℚ), f = r.startPrice →
      resolveUpDownRound r f = r.predictions.map fun p =>
        ⟨{ p with won := none, payout := some p.amount }, p.amount⟩) ∧
    (∀ (r : Round) (f : ℚ),
      r.priceRanges.find? (fun g => decide (g.min ≤ f ∧ f < g.max)) = none →
      resolveLegendsRound r f = r.predictions.map fun p =>
        ⟨{ p with won := none, payout := some p.amount }, p.amount⟩) :=
  ⟨fun r f h => resolveUpDown_refund r f h, fun r f h => resolveLegends_refund r f h⟩

/-- Claim C6 witness: the refund characterisation instantiated on the
binary scenario resolved exactly at its start price and on the LEGENDS
round resolved at 0.20, outside both declared ranges. -/
theorem c6_refund_everyone_witness :
    resolveUpDownRound roundScenario 100 = roundScenario.predictions.map (fun p =>
      ⟨{ p with won := none, payout := some p.amount }, p.amount⟩) ∧
    resolveLegendsRound roundLegends (2 / 10) = roundLegends.predictions.map (fun p =>
      ⟨{ p with won := none, payout := some p.amount }, p.amount⟩) :=
  ⟨c6_refund_everyone.1 roundScenario 100 (by norm_num [roundScenario]),
   c6_refund_everyone.2 roundLegends (2 / 10) roundLegends_find_none⟩

/-! ## resolveRound state-machine lemmas -/

theorem resolveRound_resolved (r : Round) (f : ℚ) (now : ℤ) (ok : Bool)
    (h : r.status = .RESOLVED) :
    resolveRound (some r) f now ok = .error .alreadyResolved := by
  simp only [resolveRound, if_pos h]

theorem resolveRound_invalid (r : Round) (f : ℚ) (now : ℤ) (ok : Bool)
    (h1 : r.status ≠ .ACTIVE) (h2 : r.status ≠ .LOCKED) (h3 : r.status ≠ .RESOLVED) :
    resolveRound (some r) f now ok = .error .invalidState := by
  simp only [resolveRound, if_neg h3, if_pos (And.intro h2 h1)]

theorem resolveRound_ok_fields (r : Round) (f : ℚ) (now : ℤ) (ok : Bool)
    (out : Round × List PredResult) (hok : resolveRound (some r) f now ok = .ok out) :
    out.1.status = .RESOLVED ∧ out.1.endPrice = some f ∧ out.1.resolvedAt = some now := by
  simp only [resolveRound] at hok
  by_cases h1 : r.status = .RESOLVED
  · rw [if_pos h1] at hok
    exact absurd hok (by simp)
  · rw [if_neg h1] at hok
    by_cases h2 : r.status ≠ .LOCKED ∧ r.status ≠ .ACTIVE
    · rw [if_pos h2] at hok
      exact absurd hok (by simp)
    · rw [if_neg h2] at hok
      cases hm : r.mode with
      | UP_DOWN =>
        rw [hm] at hok
        cases ok with
        | false =>
          rw [if_neg (by simp)] at hok
          exact absurd hok (by simp)
        | true =>
          rw [if_pos rfl] at hok
          dsimp only at hok
          injection hok with h
          subst h
          exact ⟨rfl, rfl, rfl⟩
      | LEGENDS =>
        rw [hm] at hok
        dsimp only at hok
        injection hok with h
        subst h
        exact ⟨rfl, rfl, rfl⟩

theorem forfeit_eval : resolveRound (some roundForfeit) 105 0 true = .ok forfeitResolved := by
  have hres : resolveUpDownRound roundForfeit 105
      = [⟨⟨1, 1, 1, some .DOWN, none, none, none⟩, 0⟩] := by
    rw [resolveUpDown_forfeit_up roundForfeit 105 (by norm_num [roundForfeit])
      (by norm_num [roundForfeit])]
    rfl
  simp only [resolveRound, if_neg (by simp [roundForfeit] : ¬roundForfeit.status = .RESOLVED),
    if_neg (by simp [roundForfeit] :
      ¬(roundForfeit.status ≠ .LOCKED ∧ roundForfeit.status ≠ .ACTIVE))]
  rw [show roundForfeit.mode = Mode.UP_DOWN from rfl]
  simp only [if_true]
  rw [hres]
  rfl

/-! ## Claim C4 -/

/-- Claim C4: `resolveRound` fails with `RoundAlreadyResolved` when the
round is already RESOLVED; fails with `InvalidRoundState` when the
status is neither ACTIVE, LOCKED nor RESOLVED; on success sets
`status = RESOLVED`, `endPrice = finalPrice` and `resolvedAt = now`
together; and a second call on the resulting round fails fast with
`RoundAlreadyResolved` — an `Except.error` return carries no round
update and no payout or balance effects. -/
theorem c4_resolution_state_machine :
    (∀ (r : Round) (f : ℚ) (now : ℤ) (ok : Bool), r.status = .RESOLVED →
      resolveRound (some r) f now ok = .error .alreadyResolved) ∧
    (∀ (r : Round) (f : ℚ) (now : ℤ) (ok : Bool),
      r.status ≠ .ACTIVE → r.status ≠ .LOCKED → r.status ≠ .RESOLVED →
      resolveRound (some r) f now ok = .error .invalidState) ∧
    (∀ (r : Round) (f : ℚ) (now : ℤ) (ok : Bool) (out : Round × List PredResult),
      resolveRound (some r) f now ok = .ok out →
      out.1.status = .RESOLVED ∧ out.1.endPrice = some f ∧ out.1.resolvedAt = some now) ∧
    (∀ (r : Round) (f : ℚ) (now : ℤ) (ok : Bool) (out : Round × List PredResult),
      resolveRound (some r) f now ok = .ok out →
      ∀ (f2 : ℚ) (n2 : ℤ) (k2 : Bool),
        resolveRound (some out.1) f2 n2 k2 = .error .alreadyResolved) :=
  ⟨resolveRound_resolved, resolveRound_invalid, resolveRound_ok_fields,
   fun r f now ok out hok f2 n2 k2 =>
     resolveRound_resolved _ _ _ _ (resolveRound_ok_fields r f now ok out hok).1⟩

/-- Claim C4 witness: the guards instantiated on concrete rounds — an
already-RESOLVED round, a CANCELLED round, and a successful resolution
of `roundForfeit` followed by a second call that fails with
`RoundAlreadyResolved`. -/
theorem c4_resolution_state_machine_witness :
    resolveRound (some { roundScenario with status := RoundStatus.RESOLVED }) 105 0 true
      = .error .alreadyResolved ∧
    resolveRound (some { roundScenario with status := RoundStatus.CANCELLED }) 105 0 true
      = .error .invalidState ∧
    resolveRound (some roundForfeit) 105 0 true = .ok forfeitResolved ∧
    forfeitResolved.1.status = .RESOLVED ∧ forfeitResolved.1.endPrice = some 105 ∧
    forfeitResolved.1.resolvedAt = some 0 ∧
    resolveRound (some forfeitResolved.1) 99 1 false = .error .alreadyResolved :=
  ⟨c4_resolution_state_machine.1 _ 105 0 true rfl,
   c4_resolution_state_machine.2.1 _ 105 0 true (by decide) (by decide) (by decide),
   forfeit_eval,
   (c4_resolution_state_machine.2.2.1 roundForfeit 105 0 true forfeitResolved forfeit_eval).1,
   (c4_resolution_state_machine.2.2.1 roundForfeit 105 0 true forfeitResolved forfeit_eval).2.1,
   (c4_resolution_state_machine.2.2.1 roundForfeit 105 0 true forfeitResolved forfeit_eval).2.2,
   c4_resolution_state_machine.2.2.2 roundForfeit 105 0 true forfeitResolved forfeit_eval
     99 1 false⟩

/-! ## Which predictions a successful resolution writes -/

theorem resolveRound_ok_up (r : Round) (f : ℚ) (now : ℤ) (ok : Bool)
    (out : Round × List PredResult) (hm : r.mode = .UP_DOWN)
    (hok : resolveRound (some r) f now ok = .ok out) :
    out.1.predictions = (resolveUpDownRound r f).map PredResult.pred := by
  simp only [resolveRound] at hok
  by_cases h1 : r.status = .RESOLVED
  · rw [if_pos h1] at hok
    exact absurd hok (by simp)
  · rw [if_neg h1] at hok
    by_cases h2 : r.status ≠ .LOCKED ∧ r.status ≠ .ACTIVE
    · rw [if_pos h2] at hok
      exact absurd hok (by simp)
    · rw [if_neg h2, hm] at hok
      cases ok with
      | false =>
        rw [if_neg (by simp)] at hok
        exact absurd hok (by simp)
      | true =>
        rw [if_pos rfl] at hok
        dsimp only at hok
        injection hok with h
        subst h
        rfl

theorem resolveRound_ok_legends (r : Round) (f : ℚ) (now : ℤ) (ok : Bool)
    (out : Round × List PredResult) (hm : r.mode = .LEGENDS)
    (hok : resolveRound (some r) f now ok = .ok out) :
    out.1.predictions = (resolveLegendsRound r f).map PredResult.pred := by
  simp only [resolveRound] at hok
  by_cases h1 : r.status = .RESOLVED
  · rw [if_pos h1] at hok
    exact absurd hok (by simp)
  · rw [if_neg h1] at hok
    by_cases h2 : r.status ≠ .LOCKED ∧ r.status ≠ .ACTIVE
    · rw [if_pos h2] at hok
      exact absurd hok (by simp)
    · rw [if_neg h2, hm] at hok
      dsimp only at hok
      injection hok with h
      subst h
      rfl

theorem payoutsSome_refund (ps : List Prediction) :
    ∀ p ∈ (refundAll ps).map PredResult.pred, p.payout.isSome = true := by
  intro p hp
  simp only [refundAll, List.map_map, List.mem_map, Function.comp_def] at hp
  obtain ⟨q, hq, rfl⟩ := hp
  rfl

theorem payoutsSome_up (r : Round) (f : ℚ) (h : r.startPrice < f) (hW : r.poolUp ≠ 0) :
    ∀ p ∈ (resolveUpDownRound r f).map PredResult.pred, p.payout.isSome = true := by
  rw [resolveUpDown_up r f h hW]
  intro p hp
  simp only [List.map_map, List.mem_map, Function.comp_def] at hp
  obtain ⟨q, hq, rfl⟩ := hp
  by_cases hc : q.side = some Side.UP
  · rw [if_pos hc]
    rfl
  · rw [if_neg hc]
    rfl

theorem payoutsSome_down (r : Round) (f : ℚ) (h : f < r.startPrice) (hW : r.poolDown ≠ 0) :
    ∀ p ∈ (resolveUpDownRound r f).map PredResult.pred, p.payout.isSome = true := by
  rw [resolveUpDown_down r f h hW]
  intro p hp
  simp only [List.map_map, List.mem_map, Function.comp_def] at hp
  obtain ⟨q, hq, rfl⟩ := hp
  by_cases hc : q.side = some Side.DOWN
  · rw [if_pos hc]
    rfl
  · rw [if_neg hc]
    rfl

theorem payoutsSome_legends (r : Round) (f : ℚ) (wr : RangeDef)
    (h : r.priceRanges.find? (fun g => decide (g.min ≤ f ∧ f < g.max)) = some wr)
    (hW : wr.pool ≠ 0) :
    ∀ p ∈ (resolveLegendsRound r f).map PredResult.pred, p.payout.isSome = true := by
  rw [resolveLegends_win r f wr h hW]
  intro p hp
  simp only [List.map_map, List.mem_map, Function.comp_def] at hp
  obtain ⟨q, hq, rfl⟩ := hp
  rcases hr : q.range with _ | pr
  · simp only [hr]
    rfl
  · simp only [hr]
    by_cases hc : pr.min = wr.min ∧ pr.max = wr.max
    · rw [if_pos hc]
      rfl
    · rw [if_neg hc]
      rfl

theorem preds_unchanged (ps : List Prediction) :
    ((ps.map fun p => (⟨p, 0⟩ : PredResult)).map PredResult.pred) = ps := by
  simp [List.map_map, Function.comp_def]

/-! ## Claim C9 -/

/-- Claim C9, counterexample: resolving a round whose winning side has
an empty pool (one DOWN stake, price moved up) succeeds and marks the
round RESOLVED, yet the stake's `payout` and `won` stay null — the
stake is not mutated, contradicting the claim that every stake has a
non-null payout after any successful `resolveRound`, including when the
winning pool is zero. -/
theorem c9_settled_counterexample :
    resolveRound (some roundForfeit) 105 0 true = .ok forfeitResolved ∧
    forfeitResolved.1.status = .RESOLVED ∧
    forfeitResolved.1.predictions.map Prediction.payout = [none] ∧
    forfeitResolved.1.predictions.map Prediction.won = [none] :=
  ⟨forfeit_eval, rfl, rfl, rfl⟩

/-- Claim C9 (amended): after a successful `resolveRound`, either every
stake of the round has a non-null payout (refunds, and resolutions with
a nonzero winning pool), or the stakes are left completely untouched —
the latter occurring in the zero-winning-pool forfeiture, e.g. an
up-move with an empty UP pool. -/
theorem c9_settled_amended :
    (∀ (r : Round) (f : ℚ) (now : ℤ) (ok : Bool) (out : Round × List PredResult),
      resolveRound (some r) f now ok = .ok out →
      (∀ p ∈ out.1.predictions, p.payout.isSome = true) ∨
        out.1.predictions = r.predictions) ∧
    (∀ (r : Round) (f : ℚ) (now : ℤ) (ok : Bool) (out : Round × List PredResult),
      resolveRound (some r) f now ok = .ok out →
      r.mode = .UP_DOWN → r.startPrice < f → r.poolUp = 0 →
      out.1.predictions = r.predictions) := by
  constructor
  · intro r f now ok out hok
    cases hm : r.mode with
    | UP_DOWN =>
      have hpred := resolveRound_ok_up r f now ok out hm hok
      rcases lt_trichotomy r.startPrice f with hlt | heq | hgt
      · by_cases hW : r.poolUp = 0
        · right
          rw [hpred, resolveUpDown_forfeit_up r f hlt hW, preds_unchanged]
        · left
          rw [hpred]
          exact payoutsSome_up r f hlt hW
      · left
        rw [hpred, resolveUpDown_refund r f heq.symm]
        exact payoutsSome_refund r.predictions
      · by_cases hW : r.poolDown = 0
        · right
          rw [hpred, resolveUpDown_forfeit_down r f hgt hW, preds_unchanged]
        · left
          rw [hpred]
          exact payoutsSome_down r f hgt hW
    | LEGENDS =>
      have hpred := resolveRound_ok_legends r f now ok out hm hok
      rcases hfind : r.priceRanges.find? (fun g => decide (g.min ≤ f ∧ f < g.max))
        with _ | wr
      · left
        rw [hpred, resolveLegends_refund r f hfind]
        exact payoutsSome_refund r.predictions
      · by_cases hW : wr.pool = 0
        · right
          rw [hpred, resolveLegends_forfeit r f wr hfind hW, preds_unchanged]
        · left
          rw [hpred]
          exact payoutsSome_legends r f wr hfind hW
  · intro r f now ok out hok hm hlt hW
    rw [resolveRound_ok_up r f now ok out hm hok, resolveUpDown_forfeit_up r f hlt hW,
      preds_unchanged]

/-- Claim C9 witness: the amended dichotomy instantiated on the
zero-winning-pool round: its successful resolution leaves the stakes
untouched. -/
theorem c9_settled_amended_witness :
    ((∀ p ∈ forfeitResolved.1.predictions, p.payout.isSome = true) ∨
      forfeitResolved.1.predictions = roundForfeit.predictions) ∧
    forfeitResolved.1.predictions = roundForfeit.predictions :=
  ⟨c9_settled_amended.1 roundForfeit 105 0 true forfeitResolved forfeit_eval,
   c9_settled_amended.2 roundForfeit 105 0 true forfeitResolved forfeit_eval rfl
     (by norm_num [roundForfeit]) rfl⟩

/-! ## Lookup/update lemmas for the placement engine -/

theorem find?_map_update {α : Type} (l : List α) (key : α → ℕ) (k : ℕ) (f : α → α)
    (hid : ∀ x, key (f x) = key x) :
    (l.map fun x => if key x = k then f x else x).find? (fun x => key x == k)
      = (l.find? (fun x => key x == k)).map f := by
  induction l with
  | nil => rfl
  | cons a l ih =>
    simp only [List.map_cons]
    by_cases ha : key a = k
    · rw [if_pos ha, List.find?_cons_of_pos _ (by simp [hid, ha]),
        List.find?_cons_of_pos _ (by simp [ha])]
      rfl
    · rw [if_neg ha, List.find?_cons_of_neg _ (by simp [ha]),
        List.find?_cons_of_neg _ (by simp [ha]), ih]

theorem findRound_updateRound (db : DB) (rid : ℕ) (f : Round → Round)
    (hid : ∀ r, (f r).id = r.id) :
    findRound (updateRound db rid f) rid = (findRound db rid).map f :=
  find?_map_update db.rounds Round.id rid f hid

theorem findUser_updateUser (db : DB) (uid : ℕ) (f : User → User)
    (hid : ∀ u, (f u).id = u.id) :
    findUser (updateUser db uid f) uid = (findUser db uid).map f :=
  find?_map_update db.users User.id uid f hid

/-! ## Claim C5 -/

/-- Claim C5: for a submission whose round exists and is ACTIVE with no
prior stake by the participant, the call fails with
`InsufficientBalance` exactly when the participant's balance is below
the amount (the conditional update `virtualBalance ≥ amount` with the
decrement is one atomic operation); and on success the balance has
decreased by exactly the amount — exact decimal arithmetic — and the
stake row is present on the round. -/
theorem c5_balance_guard (db : DB) (uid rid : ℕ) (amount : ℚ) (side : Option Side)
    (range : Option RangeSel) (pid : ℕ) (ok : Bool) (r : Round) (u : User)
    (hr : findRound db rid = some r) (hst : r.status = .ACTIVE)
    (hdup : r.predictions.find? (fun p => p.userId == uid) = none)
    (hu : findUser db uid = some u) :
    ((submitPrediction db uid rid amount side range pid ok = .error .insufficientBalance)
      ↔ u.balance < amount) ∧
    (∀ (db1 : DB) (calls : List SorobanCall),
      submitPrediction db uid rid amount side range pid ok = .ok (db1, calls) →
      findUser db1 uid = some { u with balance := u.balance - amount } ∧
      (∃ r1, findRound db1 rid = some r1 ∧
        ({ id := pid, userId := uid, amount := amount, side := side, range := range,
           won := none, payout := none } : Prediction) ∈ r1.predictions)) := by
  have hred : submitPrediction db uid rid amount side range pid ok
      = (if u.balance < amount then .error .insufficientBalance
        else
          (match r.mode with
          | Mode.UP_DOWN =>
            match side with
            | none => .error .missingSide
            | some s =>
              if ok then
                .ok (updateRound (updateRound
                    (updateUser db uid fun v => { v with balance := v.balance - amount })
                    rid fun q => { q with predictions := q.predictions ++
                      [{ id := pid, userId := uid, amount := amount, side := side,
                         range := range, won := none, payout := none }] })
                  rid fun q =>
                    if s = Side.UP then { q with poolUp := q.poolUp + amount }
                    else { q with poolDown := q.poolDown + amount },
                  [⟨u.wallet, amount, s⟩])
              else .error .settlementFailed
          | Mode.LEGENDS =>
            match range with
            | none => .error .missingRange
            | some pr =>
              if (r.priceRanges.find? fun g => g.min == pr.min && g.max == pr.max).isSome then
                .ok (updateRound (updateRound
                    (updateUser db uid fun v => { v with balance := v.balance - amount })
                    rid fun q => { q with predictions := q.predictions ++
                      [{ id := pid, userId := uid, amount := amount, side := side,
                         range := range, won := none, payout := none }] })
                  rid fun q =>
                    { q with priceRanges := q.priceRanges.map fun g =>
                        if g.min = pr.min ∧ g.max = pr.max then
                          { g with pool := fl64 (g.pool + fl64 amount) }
                        else g },
                  [])
              else .error .invalidRange)) := by
    simp only [submitPrediction, hr, hu, hst, hdup]
    rfl
  constructor
  · rw [hred]
    by_cases hb : u.balance < amount
    · rw [if_pos hb]
      simp [hb]
    · rw [if_neg hb]
      simp only [hb, iff_false]
      cases r.mode with
      | UP_DOWN =>
        cases side with
        | none => simp
        | some s =>
          cases ok with
          | true => simp
          | false => simp
      | LEGENDS =>
        cases range with
        | none => simp
        | some pr =>
          by_cases hv :
              (r.priceRanges.find? fun g => g.min == pr.min && g.max == pr.max).isSome = true
          · simp [hv]
          · simp [hv]
  · intro db1 calls hok2
    rw [hred] at hok2
    by_cases hb : u.balance < amount
    · rw [if_pos hb] at hok2
      exact absurd hok2 (by simp)
    · rw [if_neg hb] at hok2
      cases hm : r.mode with
      | UP_DOWN =>
        rw [hm] at hok2
        cases side with
        | none => exact absurd hok2 (by simp)
        | some s =>
          cases ok with
          | false => exact absurd hok2 (by simp)
          | true =>
            dsimp only at hok2
            rw [if_pos rfl] at hok2
            injection hok2 with hpair
            injection hpair with hdb hcalls
            subst hdb
            constructor
            · have hfu : findUser (updateUser db uid fun v =>
                  { v with balance := v.balance - amount }) uid
                  = some { u with balance := u.balance - amount } := by
                rw [findUser_updateUser db uid
                    (fun v => { v with balance := v.balance - amount }) (fun v => rfl), hu]
                rfl
              exact hfu
            · have hfr : findRound (updateRound (updateRound
                  (updateUser db uid fun v => { v with balance := v.balance - amount })
                  rid fun q => { q with predictions := q.predictions ++
                    [{ id := pid, userId := uid, amount := amount, side := some s,
                       range := range, won := none, payout := none }] })
                  rid fun q =>
                    if s = Side.UP then { q with poolUp := q.poolUp + amount }
                    else { q with poolDown := q.poolDown + amount }) rid
                  = some (((fun q =>
                      if s = Side.UP then { q with poolUp := q.poolUp + amount }
                      else { q with poolDown := q.poolDown + amount }) : Round → Round)
                    ({ r with predictions := r.predictions ++
                      [{ id := pid, userId := uid, amount := amount, side := some s,
                         range := range, won := none, payout := none }] })) := by
                rw [findRound_updateRound _ rid (fun q =>
                      if s = Side.UP then { q with poolUp := q.poolUp + amount }
                      else { q with poolDown := q.poolDown + amount }) (fun q => by
                      by_cases hs : s = Side.UP <;> simp [hs]),
                  findRound_updateRound _ rid (fun q =>
                      { q with predictions := q.predictions ++
                        [{ id := pid, userId := uid, amount := amount, side := some s,
                           range := range, won := none, payout := none }] })
                    (fun q => rfl),
                  show findRound (updateUser db uid fun v =>
                    { v with balance := v.balance - amount }) rid = findRound db rid from rfl,
                  hr]
                rfl
              refine ⟨_, hfr, ?_⟩
              by_cases hs : s = Side.UP <;> simp [hs]
      | LEGENDS =>
        rw [hm] at hok2
        cases range with
        | none => exact absurd hok2 (by simp)
        | some pr =>
          dsimp only at hok2
          by_cases hv :
              (r.priceRanges.find? fun g => g.min == pr.min && g.max == pr.max).isSome = true
          · rw [if_pos hv] at hok2
            injection hok2 with hpair
            injection hpair with hdb hcalls
            subst hdb
            constructor
            · have hfu : findUser (updateUser db uid fun v =>
                  { v with balance := v.balance - amount }) uid
                  = some { u with balance := u.balance - amount } := by
                rw [findUser_updateUser db uid
                    (fun v => { v with balance := v.balance - amount }) (fun v => rfl), hu]
                rfl
              exact hfu
            · have hfr : findRound (updateRound (updateRound
                  (updateUser db uid fun v => { v with balance := v.balance - amount })
                  rid fun q => { q with predictions := q.predictions ++
                    [{ id := pid, userId := uid, amount := amount, side := side,
                       range := some pr, won := none, payout := none }] })
                  rid fun q =>
                    { q with priceRanges := q.priceRanges.map fun g =>
                        if g.min = pr.min ∧ g.max = pr.max then
                          { g with pool := fl64 (g.pool + fl64 amount) }
                        else g }) rid
                  = some ({ ({ r with predictions := r.predictions ++
                      [{ id := pid, userId := uid, amount := amount, side := side,
                         range := some pr, won := none, payout := none }] } : Round) with
                      priceRanges := ({ r with predictions := r.predictions ++
                        [{ id := pid, userId := uid, amount := amount, side := side,
                           range := some pr, won := none, payout := none }] } :
                          Round).priceRanges.map fun g =>
                        if g.min = pr.min ∧ g.max = pr.max then
                          { g with pool := fl64 (g.pool + fl64 amount) }
                        else g }) := by
                rw [findRound_updateRound _ rid (fun q =>
                      { q with priceRanges := q.priceRanges.map fun g =>
                          if g.min = pr.min ∧ g.max = pr.max then
                            { g with pool := fl64 (g.pool + fl64 amount) }
                          else g }) (fun q => rfl),
                  findRound_updateRound _ rid (fun q =>
                      { q with predictions := q.predictions ++
                        [{ id := pid, userId := uid, amount := amount, side := side,
                           range := some pr, won := none, payout := none }] })
                    (fun q => rfl),
                  show findRound (updateUser db uid fun v =>
                    { v with balance := v.balance - amount }) rid = findRound db rid from rfl,
                  hr]
                rfl
              refine ⟨_, hfr, ?_⟩
              simp
          · rw [if_neg hv] at hok2
            exact absurd hok2 (by simp)

/-- Claim C5 witness: the balance guard instantiated on a funded user
(100) staking 30 on the ACTIVE binary round. -/
theorem c5_balance_guard_witness :
    ((submitPrediction dbBinary 1 1 30 (some .UP) none 1 true
        = .error .insufficientBalance) ↔ userA.balance < 30) ∧
    (∀ (db1 : DB) (calls : List SorobanCall),
      submitPrediction dbBinary 1 1 30 (some .UP) none 1 true = .ok (db1, calls) →
      findUser db1 1 = some { userA with balance := userA.balance - 30 } ∧
      (∃ r1, findRound db1 1 = some r1 ∧
        ({ id := 1, userId := 1, amount := 30, side := some .UP, range := none,
           won := none, payout := none } : Prediction) ∈ r1.predictions)) :=
  c5_balance_guard dbBinary 1 1 30 (some .UP) none 1 true binRound userA rfl rfl rfl rfl

/-! ## Claim C3 -/

/-- Claim C3: when the external Soroban settlement call inside the
placement transaction throws (modeled by `sorobanOk = false` on a path
that reaches the call: existing ACTIVE UP_DOWN round, no duplicate,
sufficient balance, a side supplied), the whole operation fails with
`SettlementCallFailed` and the database is unchanged afterwards — no
balance change, no pool change, no stake row (`$transaction` rollback). -/
theorem c3_rollback (db : DB) (uid rid : ℕ) (amount : ℚ) (s : Side)
    (range : Option RangeSel) (pid : ℕ) (r : Round) (u : User)
    (hr : findRound db rid = some r) (hst : r.status = .ACTIVE)
    (hdup : r.predictions.find? (fun p => p.userId == uid) = none)
    (hu : findUser db uid = some u) (hb : ¬ u.balance < amount)
    (hm : r.mode = .UP_DOWN) :
    submitPrediction db uid rid amount (some s) range pid false
      = .error .settlementFailed ∧
    applySubmit db uid rid amount (some s) range pid false = db := by
  have h1 : submitPrediction db uid rid amount (some s) range pid false
      = .error .settlementFailed := by
    have hred : submitPrediction db uid rid amount (some s) range pid false
        = (if u.balance < amount then .error .insufficientBalance
          else
            (match r.mode with
            | Mode.UP_DOWN => .error .settlementFailed
            | Mode.LEGENDS =>
              match range with
              | none => .error .missingRange
              | some pr =>
                if (r.priceRanges.find? fun g => g.min == pr.min && g.max == pr.max).isSome then
                  .ok (updateRound (updateRound
                      (updateUser db uid fun v => { v with balance := v.balance - amount })
                      rid fun q => { q with predictions := q.predictions ++
                        [{ id := pid, userId := uid, amount := amount, side := some s,
                           range := range, won := none, payout := none }] })
                    rid fun q =>
                      { q with priceRanges := q.priceRanges.map fun g =>
                          if g.min = pr.min ∧ g.max = pr.max then
                            { g with pool := fl64 (g.pool + fl64 amount) }
                          else g },
                    [])
                else .error .invalidRange)) := by
      simp only [submitPrediction, hr, hu, hst, hdup]
      rfl
    rw [hred, if_neg hb, hm]
  have h2 : applySubmit db uid rid amount (some s) range pid false = db := by
    simp only [applySubmit, h1]
  exact ⟨h1, h2⟩

/-- Claim C3 witness: a funded user staking 30 UP on the ACTIVE binary
round while the settlement call fails. -/
theorem c3_rollback_witness :
    submitPrediction dbBinary 1 1 30 (some .UP) none 1 false
      = .error .settlementFailed ∧
    applySubmit dbBinary 1 1 30 (some .UP) none 1 false = dbBinary :=
  c3_rollback dbBinary 1 1 30 .UP none 1 binRound userA rfl rfl rfl rfl
    (by norm_num [userA]) rfl

/-! ## Concrete binary64 evaluations -/

theorem rhalfEven_gt_half {q : ℚ} {n : ℤ} (hf : ⌊q⌋ = n) (h : 1 / 2 < q - n) :
    rhalfEven q = n + 1 := by
  dsimp only [rhalfEven]
  rw [hf, if_neg (by linarith), if_pos h]

theorem rhalfEven_half_odd {q : ℚ} {n : ℤ} (hf : ⌊q⌋ = n) (h : q - n = 1 / 2)
    (ho : n % 2 = 1) : rhalfEven q = n + 1 := by
  dsimp only [rhalfEven]
  rw [hf, h, if_neg (lt_irrefl _), if_neg (lt_irrefl _), if_neg (by omega)]

/-- `0.1` as a binary64 value. -/
theorem fl64_tenth : fl64 (1 / 10) = 3602879701896397 / 2 ^ 55 := by
  rw [fl64_eq_pos (e := -4) (by norm_num) (by norm_num),
    show (1 / 10 : ℚ) * (2 : ℚ) ^ ((52 : ℤ) - (-4)) = 36028797018963968 / 5 by norm_num,
    rhalfEven_gt_half (n := 7205759403792793) (by norm_num) (by norm_num)]
  norm_num

/-- `0.2` as a binary64 value. -/
theorem fl64_twotenths : fl64 (2 / 10) = 3602879701896397 / 2 ^ 54 := by
  rw [fl64_eq_pos (e := -3) (by norm_num) (by norm_num),
    show (2 / 10 : ℚ) * (2 : ℚ) ^ ((52 : ℤ) - (-3)) = 36028797018963968 / 5 by norm_num,
    rhalfEven_gt_half (n := 7205759403792793) (by norm_num) (by norm_num)]
  norm_num

/-- Adding binary64 `0.1` to a zero pool is exact. -/
theorem fl64_zero_add_tenth :
    fl64 ((0 : ℚ) + 3602879701896397 / 2 ^ 55) = 3602879701896397 / 2 ^ 55 := by
  rw [zero_add]
  exact fl64_fixed (e := -4) (z := 7205759403792794) (by norm_num) (by norm_num) (by norm_num)

/-- The binary64 sum of `0.1` and `0.2`: the rounded result
`1351079888211149 / 2 ^ 52` (the IEEE 0.30000000000000004). -/
theorem fl64_sum_tenths :
    fl64 ((3602879701896397 / 2 ^ 55 : ℚ) + 3602879701896397 / 2 ^ 54)
      = 1351079888211149 / 2 ^ 52 := by
  rw [show (3602879701896397 / 2 ^ 55 : ℚ) + 3602879701896397 / 2 ^ 54
      = 10808639105689191 / 2 ^ 55 by norm_num,
    fl64_eq_pos (e := -2) (by norm_num) (by norm_num),
    show (10808639105689191 / 2 ^ 55 : ℚ) * (2 : ℚ) ^ ((52 : ℤ) - (-2))
      = 10808639105689191 / 2 by norm_num,
    rhalfEven_half_odd (n := 5404319552844595) (by norm_num) (by norm_num) (by norm_num)]
  norm_num

/-! ## Evaluations of concrete placements -/

theorem legends_step1 :
    submitPrediction dbLegends 1 1 (1 / 10) none (some ⟨0, 1⟩) 1 true
      = .ok (dbLegends1, []) := by
  have hb : ¬ userA.balance < (1 / 10 : ℚ) := by norm_num [userA]
  have hred : submitPrediction dbLegends 1 1 (1 / 10) none (some ⟨0, 1⟩) 1 true
      = (if userA.balance < (1 / 10 : ℚ) then .error .insufficientBalance
        else .ok (dbLegends1, [])) := rfl
  rw [hred, if_neg hb]

theorem legends_step2 :
    submitPrediction dbLegends1 2 1 (2 / 10) none (some ⟨0, 1⟩) 2 true
      = .ok (dbLegends2, []) := by
  have hb : ¬ userB.balance < (2 / 10 : ℚ) := by norm_num [userB]
  have hred : submitPrediction dbLegends1 2 1 (2 / 10) none (some ⟨0, 1⟩) 2 true
      = (if userB.balance < (2 / 10 : ℚ) then .error .insufficientBalance
        else .ok (dbLegends2, [])) := rfl
  rw [hred, if_neg hb]

theorem binary_stepA :
    submitPrediction dbBinary 1 1 (1 / 10) (some .UP) none 1 true
      = .ok (dbBinaryA, [⟨"GWALLETA", 1 / 10, Side.UP⟩]) := by
  have hb : ¬ userA.balance < (1 / 10 : ℚ) := by norm_num [userA]
  have hred : submitPrediction dbBinary 1 1 (1 / 10) (some .UP) none 1 true
      = (if userA.balance < (1 / 10 : ℚ) then .error .insufficientBalance
        else .ok (dbBinaryA, [⟨"GWALLETA", 1 / 10, Side.UP⟩])) := rfl
  rw [hred, if_neg hb]

theorem binary_stepB :
    submitPrediction dbBinaryA 2 1 (2 / 10) (some .UP) none 2 true
      = .ok (dbBinaryB, [⟨"GWALLETB", 2 / 10, Side.UP⟩]) := by
  have hb : ¬ userB.balance < (2 / 10 : ℚ) := by norm_num [userB]
  have hred : submitPrediction dbBinaryA 2 1 (2 / 10) (some .UP) none 2 true
      = (if userB.balance < (2 / 10 : ℚ) then .error .insufficientBalance
        else .ok (dbBinaryB, [⟨"GWALLETB", 2 / 10, Side.UP⟩])) := rfl
  rw [hred, if_neg hb]

theorem binary_step30 : submitPrediction dbBinary 1 1 30 (some .UP) none 1 true
    = .ok (dbBinary1, [⟨"GWALLETA", 30, Side.UP⟩]) := by
  have hb : ¬ userA.balance < (30 : ℚ) := by norm_num [userA]
  have hred : submitPrediction dbBinary 1 1 30 (some .UP) none 1 true
      = (if userA.balance < (30 : ℚ) then .error .insufficientBalance
        else .ok (dbBinary1, [⟨"GWALLETA", 30, Side.UP⟩])) := rfl
  rw [hred, if_neg hb]

/-! ## Claim C7 -/

/-- Claim C7 counterexample: a successful LEGENDS (RANGE-mode) placement
makes no external settlement call at all — `sorobanService.placeBet` is
invoked only in the UP_DOWN branch of the `submitPrediction` flow. -/
theorem c7_settlement_call_counterexample :
    legRound.mode = .LEGENDS ∧
    submitPrediction dbLegends 1 1 (1 / 10) none (some ⟨0, 1⟩) 1 true
      = .ok (dbLegends1, []) :=
  ⟨rfl, legends_step1⟩

/-- Claim C7 (amended): on every successful placement on an UP_DOWN
round the external settlement call is invoked exactly once with the
participant's wallet, the amount and the chosen side; on a successful
LEGENDS placement no settlement call is made. -/
theorem c7_settlement_call_amended (db : DB) (uid rid : ℕ) (amount : ℚ)
    (side : Option Side) (range : Option RangeSel) (pid : ℕ) (ok : Bool)
    (r : Round) (u : User)
    (hr : findRound db rid = some r) (hst : r.status = .ACTIVE)
    (hdup : r.predictions.find? (fun p => p.userId == uid) = none)
    (hu : findUser db uid = some u) :
    ∀ (db1 : DB) (calls : List SorobanCall),
      submitPrediction db uid rid amount side range pid ok = .ok (db1, calls) →
      (r.mode = .UP_DOWN → ∃ s, side = some s ∧ calls = [⟨u.wallet, amount, s⟩]) ∧
      (r.mode = .LEGENDS → calls = []) := by
  have hred : submitPrediction db uid rid amount side range pid ok
      = (if u.balance < amount then .error .insufficientBalance
        else
          (match r.mode with
          | Mode.UP_DOWN =>
            match side with
            | none => .error .missingSide
            | some s =>
              if ok then
                .ok (updateRound (updateRound
                    (updateUser db uid fun v => { v with balance := v.balance - amount })
                    rid fun q => { q with predictions := q.predictions ++
                      [{ id := pid, userId := uid, amount := amount, side := side,
                         range := range, won := none, payout := none }] })
                  rid fun q =>
                    if s = Side.UP then { q with poolUp := q.poolUp + amount }
                    else { q with poolDown := q.poolDown + amount },
                  [⟨u.wallet, amount, s⟩])
              else .error .settlementFailed
          | Mode.LEGENDS =>
            match range with
            | none => .error .missingRange
            | some pr =>
              if (r.priceRanges.find? fun g => g.min == pr.min && g.max == pr.max).isSome then
                .ok (updateRound (updateRound
                    (updateUser db uid fun v => { v with balance := v.balance - amount })
                    rid fun q => { q with predictions := q.predictions ++
                      [{ id := pid, userId := uid, amount := amount, side := side,
                         range := range, won := none, payout := none }] })
                  rid fun q =>
                    { q with priceRanges := q.priceRanges.map fun g =>
                        if g.min = pr.min ∧ g.max = pr.max then
                          { g with pool := fl64 (g.pool + fl64 amount) }
                        else g },
                  [])
              else .error .invalidRange)) := by
    simp only [submitPrediction, hr, hu, hst, hdup]
    rfl
  intro db1 calls hok
  rw [hred] at hok
  by_cases hb : u.balance < amount
  · rw [if_pos hb] at hok
    exact absurd hok (by simp)
  · rw [if_neg hb] at hok
    cases hm : r.mode with
    | UP_DOWN =>
      rw [hm] at hok
      cases side with
      | none => exact absurd hok (by simp)
      | some s =>
        cases ok with
        | false => exact absurd hok (by simp)
        | true =>
          dsimp only at hok
          rw [if_pos rfl] at hok
          injection hok with hpair
          injection hpair with hdb hcalls
          exact ⟨fun _ => ⟨s, rfl, hcalls.symm⟩, fun hc => absurd hc (by simp)⟩
    | LEGENDS =>
      rw [hm] at hok
      cases range with
      | none => exact absurd hok (by simp)
      | some pr =>
        dsimp only at hok
        by_cases hv :
            (r.priceRanges.find? fun g => g.min == pr.min && g.max == pr.max).isSome = true
        · rw [if_pos hv] at hok
          injection hok with hpair
          injection hpair with hdb hcalls
          exact ⟨fun hc => absurd hc (by simp), fun _ => hcalls.symm⟩
        · rw [if_neg hv] at hok
          exact absurd hok (by simp)

/-- Claim C7 witness: staking 30 UP on the ACTIVE binary round records
exactly the settlement call with the staker's wallet, amount and side. -/
theorem c7_settlement_call_amended_witness :
    (binRound.mode = .UP_DOWN →
      ∃ s, (some Side.UP : Option Side) = some s ∧
        ([⟨"GWALLETA", 30, Side.UP⟩] : List SorobanCall) = [⟨userA.wallet, 30, s⟩]) ∧
    (binRound.mode = .LEGENDS → ([⟨"GWALLETA", 30, Side.UP⟩] : List SorobanCall) = []) :=
  c7_settlement_call_amended dbBinary 1 1 30 (some .UP) none 1 true binRound userA
    rfl rfl rfl rfl dbBinary1 [⟨"GWALLETA", 30, Side.UP⟩] binary_step30

/-! ## Claim C8 -/

/-- Claim C8: `autoResolveRounds` never consults the oracle's staleness
flag. An expired ACTIVE round is selected for resolution even when the
oracle reports `stale = true` (first conjunct: the round ended 16 s
before the tick, the price 0.35 is positive but stale, and the round is
resolved anyway), and the scheduler's output is independent of the
staleness flag altogether (second conjunct). -/
theorem c8_stale_not_consulted :
    autoResolveRounds [roundExpired] 0 ⟨some (7 / 20), true⟩ = [5] ∧
    (∀ (rounds : List Round) (now : ℤ) (p : Option ℚ) (b1 b2 : Bool),
      autoResolveRounds rounds now ⟨p, b1⟩ = autoResolveRounds rounds now ⟨p, b2⟩) := by
  constructor
  · have hred : autoResolveRounds [roundExpired] 0 ⟨some (7 / 20), true⟩
        = if (7 / 20 : ℚ) ≤ 0 then [] else [5] := rfl
    rw [hred, if_neg (by norm_num)]
  · intro rounds now p b1 b2
    rfl

/-! ## Claim C10 -/

/-- Claim C10: placing 0.1 and then 0.2 on the same declared range of a
LEGENDS round stores the binary64 pool
`fl64(fl64(0.1) + fl64(0.2)) = 1351079888211149/2^52` (the IEEE
0.30000000000000004) in the round's JSON `priceRanges`, which differs
from the exact decimal sum 0.3 of the two stake amounts; the same two
stakes placed UP on an UP_DOWN round give a side pool exactly equal to
the decimal sum 0.3. -/
theorem c10_float_range_pool :
    (submitPrediction dbLegends 1 1 (1 / 10) none (some ⟨0, 1⟩) 1 true
        = .ok (dbLegends1, []) ∧
     submitPrediction dbLegends1 2 1 (2 / 10) none (some ⟨0, 1⟩) 2 true
        = .ok (dbLegends2, []) ∧
     ∃ r2, findRound dbLegends2 1 = some r2 ∧
       r2.priceRanges.map RangeDef.pool = [1351079888211149 / 2 ^ 52] ∧
       sumAmounts r2.predictions = 3 / 10 ∧
       r2.priceRanges.map RangeDef.pool ≠ [sumAmounts r2.predictions]) ∧
    (submitPrediction dbBinary 1 1 (1 / 10) (some .UP) none 1 true
        = .ok (dbBinaryA, [⟨"GWALLETA", 1 / 10, Side.UP⟩]) ∧
     submitPrediction dbBinaryA 2 1 (2 / 10) (some .UP) none 2 true
        = .ok (dbBinaryB, [⟨"GWALLETB", 2 / 10, Side.UP⟩]) ∧
     ∃ rb, findRound dbBinaryB 1 = some rb ∧
       rb.poolUp = 3 / 10 ∧ sumAmounts rb.predictions = 3 / 10 ∧
       rb.poolUp = sumAmounts rb.predictions) := by
  refine ⟨⟨legends_step1, legends_step2, ?_⟩, ⟨binary_stepA, binary_stepB, ?_⟩⟩
  · have hfr2 : findRound dbLegends2 1 = some
        { id := 1, mode := .LEGENDS, status := .ACTIVE, startPrice := 1 / 2,
          endPrice := none, endTime := 3600000, resolvedAt := none,
          poolUp := 0, poolDown := 0,
          priceRanges := [⟨0, 1, fl64 (fl64 ((0 : ℚ) + fl64 (1 / 10)) + fl64 (2 / 10))⟩],
          predictions :=
            [⟨1, 1, 1 / 10, none, some ⟨0, 1⟩, none, none⟩,
             ⟨2, 2, 2 / 10, none, some ⟨0, 1⟩, none, none⟩] } := rfl
    refine ⟨_, hfr2, ?_, ?_, ?_⟩
    · show [fl64 (fl64 ((0 : ℚ) + fl64 (1 / 10)) + fl64 (2 / 10))] = _
      rw [fl64_tenth, fl64_twotenths, fl64_zero_add_tenth, fl64_sum_tenths]
    · show (1 : ℚ) / 10 + (2 / 10 + 0) = 3 / 10
      norm_num
    · show [fl64 (fl64 ((0 : ℚ) + fl64 (1 / 10)) + fl64 (2 / 10))] ≠ _
      rw [fl64_tenth, fl64_twotenths, fl64_zero_add_tenth, fl64_sum_tenths]
      have hs : sumAmounts
          [⟨1, 1, 1 / 10, none, some ⟨0, 1⟩, none, none⟩,
           ⟨2, 2, 2 / 10, none, some ⟨0, 1⟩, none, none⟩] = (3 : ℚ) / 10 := by
        show (1 : ℚ) / 10 + (2 / 10 + 0) = 3 / 10
        norm_num
      rw [hs]
      simp only [ne_eq, List.cons.injEq, and_true]
      norm_num
  · have hfrB : findRound dbBinaryB 1 = some
        { id := 1, mode := .UP_DOWN, status := .ACTIVE, startPrice := 1 / 2,
          endPrice := none, endTime := 3600000, resolvedAt := none,
          poolUp := (0 : ℚ) + 1 / 10 + 2 / 10, poolDown := 0, priceRanges := [],
          predictions :=
            [⟨1, 1, 1 / 10, some .UP, none, none, none⟩,
             ⟨2, 2, 2 / 10, some .UP, none, none, none⟩] } := rfl
    refine ⟨_, hfrB, by norm_num, ?_, by norm_num [sumAmounts]⟩
    show (1 : ℚ) / 10 + (2 / 10 + 0) = 3 / 10
    norm_num

end Xelma
